import Mathlib

/-!
# Verification of `sql/common.go` (go2sky-plugins)

A shallow embedding of the argument normalizer and of the DSN address
extractor of `src/sql/common.go`, with the properties stated about them.

Conventions of the embedding

* A Go `string` is a Lean `String`: both are UTF-8 byte sequences addressed by
  byte offsets (`len(s)` is `String.utf8ByteSize`).  The Lean type holds the
  well-formed UTF-8 strings.
* The `regexp` package works on runes; a rune is a Lean `Char`, and the
  matcher runs on `String.data`.
* A run-time panic of Go (slice bounds out of range) is the result `none`.
-/

namespace Go2skySql

/-! ## Values and errors -/

/-- The dynamic values a `driver.Value` (an `interface{}`) can hold.  `other`
stands for a value of any further dynamic type (`float64`, `time.Time`, ...),
kept together with the text `fmt` prints for it under `%v`. -/
inductive Value where
  | nil : Value
  | int64 (i : Int) : Value
  | bool (b : Bool) : Value
  | string (s : String) : Value
  | other (rendering : String) : Value
  deriving DecidableEq, Repr

/-- The struct `driver.NamedValue` of `database/sql/driver`. -/
structure NamedValue where
  Name : String
  Ordinal : Int
  Value : Value
  deriving DecidableEq, Repr

/-- An `error` made by `errors.New`: the package's `errorString`, known by its text. -/
structure GoError where
  s : String
  deriving DecidableEq, Repr

/-- The Go call `errors.New(text)`. -/
def errorsNew (text : String) : GoError := ⟨text⟩

/-- The package variable `ErrUnsupportedOp` (common.go, line 43). -/
def ErrUnsupportedOp : GoError := errorsNew "operation unsupported by the underlying driver"

/-- The Go call `fmt.Sprintf("%v", v)` on a `driver.Value`. -/
def sprintfV : Value → String
  | .nil => "<nil>"
  | .int64 i => toString i
  | .bool b => if b then "true" else "false"
  | .string s => s
  | .other rendering => rendering

/-- The tail loop of `strings.Join`: every further element is written after the separator. -/
def stringsJoinRest (sep : String) : List String → String → String
  | [], acc => acc
  | s :: rest, acc => stringsJoinRest sep rest (acc ++ sep ++ s)

/-- The Go call `strings.Join(elems, sep)`: no element gives the empty string, otherwise
the first element is written and then each further one after `sep`. -/
def stringsJoin (elems : List String) (sep : String) : String :=
  match elems with
  | [] => ""
  | e :: rest => stringsJoinRest sep rest e

/-! ## The argument normalizer -/

/-- The loop of `namedValueToValueString`: `b = append(b, fmt.Sprintf("%v", param.Value))`
for every `param` of `named`, in order. -/
def namedValueToValueStringLoop : List NamedValue → List String → List String
  | [], b => b
  | param :: rest, b => namedValueToValueStringLoop rest (b ++ [sprintfV param.Value])

/-- The function `namedValueToValueString` (common.go, lines 45-52). -/
def namedValueToValueString (named : List NamedValue) : String :=
  let b := namedValueToValueStringLoop named []
  stringsJoin b ","

/-- The loop of `namedValueToValue`, at index `n` with the slice `dargs` built so far:
a parameter with `len(param.Name) > 0` returns `nil` and a new error at once, otherwise
`dargs[n] = param.Value`; after the last parameter `dargs` is returned with a `nil` error.
The returned slice is `none` for Go's `nil`. -/
def namedValueToValueLoop : List NamedValue → Nat → List Value → Option (List Value) × Option GoError
  | [], _, dargs => (some dargs, none)
  | param :: rest, n, dargs =>
    if param.Name.utf8ByteSize > 0 then
      (none, some (errorsNew "sql: driver does not support the use of Named Parameters"))
    else
      namedValueToValueLoop rest (n + 1) (dargs.set n param.Value)

/-- The function `namedValueToValue` (common.go, lines 54-65):
`dargs := make([]driver.Value, len(named))` holds `len(named)` nil values. -/
def namedValueToValue (named : List NamedValue) : Option (List Value) × Option GoError :=
  let dargs := List.replicate named.length Value.nil
  namedValueToValueLoop named 0 dargs

/-- The loop of `argsToString`: `sb.WriteString(fmt.Sprintf("%v, ", arg))` for every `arg`. -/
def argsToStringLoop : List Value → String → String
  | [], sb => sb
  | arg :: rest, sb => argsToStringLoop rest (sb ++ (sprintfV arg ++ ", "))

/-- The function `argsToString` (common.go, lines 67-73). -/
def argsToString (args : List Value) : String :=
  argsToStringLoop args ""

/-- The unnamed parameters that carry the values `vs`, numbered from `ordinal`: each has an
empty `Name`, and the `Ordinal` counts the positions. -/
def unnamedParamsFrom (ordinal : Int) : List Value → List NamedValue
  | [] => []
  | v :: vs => NamedValue.mk "" ordinal v :: unnamedParamsFrom (ordinal + 1) vs

/-- The unnamed parameters that carry the values `vs`, with the ordinals 1, 2, and so on. -/
def unnamedParams (vs : List Value) : List NamedValue :=
  unnamedParamsFrom 1 vs

/-! ## The regular expressions of `parseDsn`

The package `regexp` is used through `regexp.MustCompile(pattern)` and
`re.FindString(dsn)`.  Its documented matching is that of a backtracking
search: among the matches that begin leftmost, the one a backtracking search
finds first.  `Regex.run` lists, in the order of that search, what is left of
the input after each way of matching at its start. -/

/-- The syntax tree of a pattern, with the operators of `regexp/syntax` that the two
patterns of `parseDsn` use.  A capture group matches what its body matches. -/
inductive Regex where
  /-- The empty match. -/
  | emptyMatch : Regex
  /-- A literal rune such as `\(`, `2` or `:`. -/
  | literal (c : Char) : Regex
  /-- A character range `[lo-hi]`; the class `\d` is `[0-9]`. -/
  | charRange (lo hi : Char) : Regex
  /-- The pattern `.`: any rune but the newline. -/
  | anyCharNotNL : Regex
  /-- A concatenation `ab`. -/
  | concat (a b : Regex) : Regex
  /-- An alternation `a|b`, which prefers `a`. -/
  | alternate (a b : Regex) : Regex
  /-- The greedy `a?`. -/
  | quest (a : Regex) : Regex
  /-- The greedy `a*`. -/
  | star (a : Regex) : Regex
  /-- The greedy `a+`. -/
  | plus (a : Regex) : Regex
  /-- The greedy `a{min,max}`, for `min ≤ max`. -/
  | repeat (a : Regex) (min max : Nat) : Regex
  deriving Repr

/-- The optional tail of a greedy bounded repetition: up to `extra` rounds of `step`, a
further round being tried before stopping. -/
def optionalRun (step : List Char → List (List Char)) : Nat → List Char → List (List Char)
  | 0, s => [s]
  | extra + 1, s => (step s).flatMap (optionalRun step extra) ++ [s]

/-- The greedy bounded repetition: `min` compulsory rounds of `step`, then up to `extra`
further rounds. -/
def repeatRun (step : List Char → List (List Char)) (extra : Nat) :
    Nat → List Char → List (List Char)
  | 0, s => optionalRun step extra s
  | min + 1, s => (step s).flatMap (repeatRun step extra min)

/-- The greedy unbounded repetition, a further round being tried before stopping.  A round
that consumes no input is not repeated; `fuel` bounds the number of rounds and is the
length of the input where the function is used. -/
def starRun (step : List Char → List (List Char)) : Nat → List Char → List (List Char)
  | 0, s => [s]
  | fuel + 1, s =>
    ((step s).filter (fun t => decide (t.length < s.length))).flatMap (starRun step fuel) ++ [s]

/-- The backtracking search at the start of `s`: the remainders of `s` after every way
the pattern matches a prefix of `s`, in the order the search finds them. -/
def Regex.run : Regex → List Char → List (List Char)
  | .emptyMatch, s => [s]
  | .literal c, s =>
    match s with
    | [] => []
    | x :: t => if x = c then [t] else []
  | .charRange lo hi, s =>
    match s with
    | [] => []
    | x :: t => if lo ≤ x ∧ x ≤ hi then [t] else []
  | .anyCharNotNL, s =>
    match s with
    | [] => []
    | x :: t => if x = '\n' then [] else [t]
  | .concat a b, s => (a.run s).flatMap b.run
  | .alternate a b, s => a.run s ++ b.run s
  | .quest a, s => a.run s ++ [s]
  | .star a, s => starRun a.run s.length s
  | .plus a, s => (a.run s).flatMap (fun t => starRun a.run t.length t)
  | .repeat a min max, s => repeatRun a.run (max - min) min s

/-- The patterns that `regexp.MustCompile` accepts: every repetition `a{min,max}` has
`min ≤ max`. -/
def Regex.wellFormed : Regex → Bool
  | .emptyMatch => true
  | .literal _ => true
  | .charRange _ _ => true
  | .anyCharNotNL => true
  | .concat a b => a.wellFormed && b.wellFormed
  | .alternate a b => a.wellFormed && b.wellFormed
  | .quest a => a.wellFormed
  | .star a => a.wellFormed
  | .plus a => a.wellFormed
  | .repeat a min max => a.wellFormed && decide (min ≤ max)

/-- The language of a pattern: `re.Matches m` says that the pattern matches the whole of
the text `m`.  This is the meaning of "the text `m` matches the pattern", without any
order of preference. -/
inductive Regex.Matches : Regex → List Char → Prop where
  | emptyMatch : Regex.Matches .emptyMatch []
  | literal (c : Char) : Regex.Matches (.literal c) [c]
  | charRange (lo hi x : Char) : lo ≤ x → x ≤ hi → Regex.Matches (.charRange lo hi) [x]
  | anyCharNotNL (x : Char) : x ≠ '\n' → Regex.Matches .anyCharNotNL [x]
  | concat {a b : Regex} {x y : List Char} :
      Regex.Matches a x → Regex.Matches b y → Regex.Matches (.concat a b) (x ++ y)
  | alternateLeft {a b : Regex} {x : List Char} :
      Regex.Matches a x → Regex.Matches (.alternate a b) x
  | alternateRight {a b : Regex} {x : List Char} :
      Regex.Matches b x → Regex.Matches (.alternate a b) x
  | questSome {a : Regex} {x : List Char} : Regex.Matches a x → Regex.Matches (.quest a) x
  | questNone {a : Regex} : Regex.Matches (.quest a) []
  | starNil {a : Regex} : Regex.Matches (.star a) []
  | starCons {a : Regex} {x y : List Char} :
      Regex.Matches a x → Regex.Matches (.star a) y → Regex.Matches (.star a) (x ++ y)
  | plus {a : Regex} {x y : List Char} :
      Regex.Matches a x → Regex.Matches (.star a) y → Regex.Matches (.plus a) (x ++ y)
  | repeatZero {a : Regex} {max : Nat} : Regex.Matches (.repeat a 0 max) []
  | repeatOptional {a : Regex} {max : Nat} {x y : List Char} :
      Regex.Matches a x → Regex.Matches (.repeat a 0 max) y →
        Regex.Matches (.repeat a 0 (max + 1)) (x ++ y)
  | repeatCompulsory {a : Regex} {min max : Nat} {x y : List Char} :
      Regex.Matches a x → Regex.Matches (.repeat a min max) y →
        Regex.Matches (.repeat a (min + 1) (max + 1)) (x ++ y)

/-- The preferred match at the start of `s`, if the pattern matches there: `s` without
the first remainder of the search. -/
def Regex.matchAt (re : Regex) (s : List Char) : Option (List Char) :=
  match re.run s with
  | [] => none
  | rest :: _ => some (s.take (s.length - rest.length))

/-- The leftmost match: the preferred match at the first position of `s` that has one. -/
def Regex.find (re : Regex) : List Char → Option (List Char)
  | [] => re.matchAt []
  | c :: t =>
    match re.matchAt (c :: t) with
    | some m => some m
    | none => re.find t

/-- The Go call `re.FindString(s)`: the text of the leftmost match, and the empty string
when there is no match. -/
def Regex.FindString (re : Regex) (s : String) : String :=
  match re.find s.data with
  | some m => String.mk m
  | none => ""

/-- The class `\d`. -/
def Regex.digit : Regex := .charRange '0' '9'

/-- The pattern of the MYSQL case, `\(.+\)`. -/
def mysqlRe : Regex :=
  .concat (.literal '(') (.concat (.plus .anyCharNotNL) (.literal ')'))

/-- One octet of the IPV4 pattern, `((2(5[0-5]|[0-4]\d))|[0-1]?\d{1,2})`. -/
def octetRe : Regex :=
  .alternate
    (.concat (.literal '2')
      (.alternate (.concat (.literal '5') (.charRange '0' '5'))
        (.concat (.charRange '0' '4') Regex.digit)))
    (.concat (.quest (.charRange '0' '1')) (.repeat Regex.digit 1 2))

/-- The pattern of the IPV4 case,
`((2(5[0-5]|[0-4]\d))|[0-1]?\d{1,2})(\.((2(5[0-5]|[0-4]\d))|[0-1]?\d{1,2})){3}:\d{1,5}`. -/
def ipv4Re : Regex :=
  .concat octetRe
    (.concat (.repeat (.concat (.literal '.') octetRe) 3 3)
      (.concat (.literal ':') (.repeat Regex.digit 1 5)))

/-! ## Texts of endpoints, for stating the claims -/

/-- The number that a run of decimal digits writes. -/
def decimalValue (ds : List Char) : Nat :=
  ds.foldl (fun n c => 10 * n + (c.toNat - '0'.toNat)) 0

/-- An octet as text: a run of 1 to 3 decimal digits whose value is at most 255. -/
def isOctetText (o : List Char) : Bool :=
  decide (1 ≤ o.length) && decide (o.length ≤ 3) && o.all Char.isDigit &&
    decide (decimalValue o ≤ 255)

/-- The text `a.b.c.d:p`. -/
def endpointText (a b c d p : List Char) : List Char :=
  a ++ '.' :: (b ++ '.' :: (c ++ '.' :: (d ++ ':' :: p)))

/-- The port part of an endpoint text: what follows its first `:`. -/
def portPart (r : List Char) : List Char :=
  (r.dropWhile (fun c => c != ':')).drop 1

/-! ## The DSN address extractor -/

/-- Modelled from the spec: the declaration of `DBType` and of its constants `MYSQL` and
`IPV4` is not in `common.go`.  The spec has `dbType` an enumeration of dialects (MySQL,
generic IPv4-addressed); `other` is any value that is neither constant. -/
inductive DBType where
  | MYSQL : DBType
  | IPV4 : DBType
  | other (name : String) : DBType
  deriving DecidableEq, Repr

/-- The Go slice expression `s[lo:hi]` on a string: it panics (`none`) unless
`0 ≤ lo ≤ hi ≤ len(s)`, and is else the bytes of `s` from offset `lo` up to `hi`. -/
def sliceString (s : String) (lo hi : Int) : Option String :=
  if 0 ≤ lo ∧ lo ≤ hi ∧ hi ≤ (s.utf8ByteSize : Int) then
    some (s.extract ⟨lo.toNat⟩ ⟨hi.toNat⟩)
  else
    none

/-- The function `parseDsn` (common.go, lines 106-121).  `addr` starts as the empty
string and is returned as it is when no case of the switch applies. -/
def parseDsn (dbType : DBType) (dsn : String) : Option String :=
  let addr := ""
  match dbType with
  | .MYSQL =>
    let addr := mysqlRe.FindString dsn
    sliceString addr 1 ((addr.utf8ByteSize : Int) - 1)
  | .IPV4 =>
    let addr := ipv4Re.FindString dsn
    some addr
  | .other _ => some addr

/-! ## The tracer SDK

The tracer of `github.com/SkyAPM/go2sky` is used through `tracer.CreateLocalSpan` and
through the methods of the span it returns.  A span is a mutable object behind a handle;
the spans that a tracer holds are a store that every call takes and returns, and a handle
is a position in the store.  A span is a recording span or a no-op span, which the tracer
hands out with a nil error when it does not trace. -/

/-- The constant `componentIDUnknown` (common.go, line 32). -/
def componentIDUnknown : Int := 0

/-- The constant `componentIDMysql` (common.go, line 33). -/
def componentIDMysql : Int := 5012

/-- The constant `tagDbType` (common.go, line 37). -/
def tagDbType : String := "db.type"

/-- The constant `tagDbInstance` (common.go, line 38). -/
def tagDbInstance : String := "db.instance"

/-- The constant `tagDbStatement` (common.go, line 39). -/
def tagDbStatement : String := "db.statement"

/-- The constant `tagDbSqlParameters` (common.go, line 40). -/
def tagDbSqlParameters : String := "db.sql.parameters"

/-- The type of a span, `go2sky.SpanType`. -/
inductive SpanType where
  | Entry : SpanType
  | Exit : SpanType
  | Local : SpanType
  deriving DecidableEq, Repr

/-- The layer of a span, `agentv3.SpanLayer`. -/
inductive SpanLayer where
  | Unknown : SpanLayer
  | Database : SpanLayer
  | RPCFramework : SpanLayer
  | Http : SpanLayer
  | MQ : SpanLayer
  | Cache : SpanLayer
  deriving DecidableEq, Repr

/-- What the tracer holds of one span: its type, operation name, peer, component id and
layer, its tags in the order they were set, how many times `End` was called on it, and
whether it is a no-op span (`*go2sky.NoopSpan`), which records nothing: the options of its
creation and the calls `SetPeer`, `SetComponent`, `SetSpanLayer` and `Tag` have no effect
on it. -/
structure Span where
  spanType : SpanType
  operationName : String
  peer : String
  componentID : Int
  layer : SpanLayer
  tags : List (String × String)
  ended : Nat
  noop : Bool
  deriving DecidableEq, Repr

/-- The recording span that the tracer allocates before the options are applied: a local
span with nothing set. -/
def Span.fresh : Span :=
  { spanType := SpanType.Local, operationName := "", peer := "", componentID := 0,
    layer := SpanLayer.Unknown, tags := [], ended := 0, noop := false }

/-- The no-op span: nothing is set in it, and nothing will be. -/
def Span.noopSpan : Span :=
  { spanType := SpanType.Local, operationName := "", peer := "", componentID := 0,
    layer := SpanLayer.Unknown, tags := [], ended := 0, noop := true }

/-- A handle of a span: its position in the store. -/
abbrev SpanRef := Nat

/-- The options of span creation that `common.go` passes: `go2sky.WithSpanType` and
`go2sky.WithOperationName`. -/
inductive SpanOption where
  | WithSpanType (spanType : SpanType) : SpanOption
  | WithOperationName (operationName : String) : SpanOption
  deriving DecidableEq, Repr

/-- The effect of an option on the span being created. -/
def SpanOption.apply : SpanOption → Span → Span
  | .WithSpanType spanType, sp => { sp with spanType := spanType }
  | .WithOperationName operationName, sp => { sp with operationName := operationName }

/-- The execution context, `context.Context`, as far as tracing reads it: the span that it
carries as the active one, if any. -/
structure Context where
  activeSpan : Option SpanRef
  deriving DecidableEq, Repr

/-- The tracer, `*go2sky.Tracer`, as a black box.  For a context it has three answers: it
refuses to create a span, with an error of its own (`createError`); or it answers, with a
nil error, by a no-op span (`noop`: the reporter is not started, the sampler declines, or
the context carries a no-op span already); or it creates a recording span. -/
structure Tracer where
  createError : Context → Option GoError
  noop : Context → Bool

/-- The Go call `tracer.CreateLocalSpan(ctx, opts...)`, which returns `(s, nCtx, err)`: on a
refusal the error alone, and the store as it was; otherwise a new span is put at the end of
the store, and the call returns its handle and the context that carries it.  The new span
is the no-op span when the tracer answers by one, and the options have no effect on it;
else it is made of the fresh span by the options in order. -/
def Tracer.CreateLocalSpan (tracer : Tracer) (ctx : Context) (opts : List SpanOption)
    (spans : List Span) : Except GoError (SpanRef × Context) × List Span :=
  match tracer.createError ctx with
  | some err => (Except.error err, spans)
  | none =>
    let sp :=
      if tracer.noop ctx = true then Span.noopSpan
      else opts.foldl (fun sp opt => opt.apply sp) Span.fresh
    (Except.ok (spans.length, { ctx with activeSpan := some spans.length }), spans ++ [sp])

/-- The change `f` made to the span behind the handle `s`, every other span being left as
it is. -/
def updateSpan (f : Span → Span) : SpanRef → List Span → List Span
  | _, [] => []
  | 0, sp :: rest => f sp :: rest
  | s + 1, sp :: rest => sp :: updateSpan f s rest

/-- The Go call `s.SetPeer(peer)`; a no-op span ignores it. -/
def SetPeer (s : SpanRef) (peer : String) (spans : List Span) : List Span :=
  updateSpan (fun sp => if sp.noop = true then sp else { sp with peer := peer }) s spans

/-- The Go call `s.SetComponent(componentID)`; a no-op span ignores it. -/
def SetComponent (s : SpanRef) (componentID : Int) (spans : List Span) : List Span :=
  updateSpan
    (fun sp => if sp.noop = true then sp else { sp with componentID := componentID }) s spans

/-- The Go call `s.SetSpanLayer(layer)`; a no-op span ignores it. -/
def SetSpanLayer (s : SpanRef) (layer : SpanLayer) (spans : List Span) : List Span :=
  updateSpan (fun sp => if sp.noop = true then sp else { sp with layer := layer }) s spans

/-- The Go call `s.Tag(key, value)`: the tag is added after the tags already set; a no-op
span ignores it. -/
def Tag (s : SpanRef) (key value : String) (spans : List Span) : List Span :=
  updateSpan
    (fun sp => if sp.noop = true then sp else { sp with tags := sp.tags ++ [(key, value)] })
    s spans

/-- The Go call `s.End()`: one more call of `End` is counted for the span, of either
kind. -/
def End (s : SpanRef) (spans : List Span) : List Span :=
  updateSpan (fun sp => { sp with ended := sp.ended + 1 }) s spans

/-! ## The span factory -/

/-- Modelled from the spec: the options bundle `options`, whose declaration is not in
`common.go`: the dialect `dbType`, the integer `componentID`, the resolved `peer`, and the
operation-name formatter `getOpName(op) -> string`. -/
structure Options where
  dbType : DBType
  componentID : Int
  peer : String
  getOpName : String → String

/-- The function `createSpan` (common.go, lines 75-89), on the store `spans`.  The result
is `(s, err)` and the store after the call.  The conversion `string(opts.dbType)` is the
parameter `dbTypeString`, the declaration of `DBType` being outside `common.go`. -/
def createSpan (dbTypeString : DBType → String) (ctx : Context) (tracer : Tracer)
    (opts : Options) (operation : String) (spans : List Span) :
    (Option SpanRef × Option GoError) × List Span :=
  match tracer.CreateLocalSpan ctx
      [SpanOption.WithSpanType SpanType.Exit,
        SpanOption.WithOperationName (opts.getOpName operation)] spans with
  | (Except.error err, spans) => ((none, some err), spans)
  | (Except.ok (s, _), spans) =>
    let spans := SetPeer s opts.peer spans
    let spans := SetComponent s opts.componentID spans
    let spans := SetSpanLayer s SpanLayer.Database spans
    let spans := Tag s tagDbType (dbTypeString opts.dbType) spans
    let spans := Tag s tagDbInstance opts.peer spans
    ((some s, none), spans)

/-- The function `createLocalSpan` (common.go, lines 91-104), on the store `spans`.  The
result is `(s, nCtx, err)` and the store after the call. -/
def createLocalSpan (dbTypeString : DBType → String) (ctx : Context) (tracer : Tracer)
    (opts : Options) (operation : String) (spans : List Span) :
    (Option SpanRef × Option Context × Option GoError) × List Span :=
  match tracer.CreateLocalSpan ctx
      [SpanOption.WithSpanType SpanType.Local,
        SpanOption.WithOperationName (opts.getOpName operation)] spans with
  | (Except.error err, spans) => ((none, none, some err), spans)
  | (Except.ok (s, nCtx), spans) =>
    let spans := SetComponent s opts.componentID spans
    let spans := SetSpanLayer s SpanLayer.Database spans
    let spans := Tag s tagDbType (dbTypeString opts.dbType) spans
    let spans := Tag s tagDbInstance opts.peer spans
    ((some s, some nCtx, none), spans)

/-! ## The driver wrapper -/

/-- Modelled from the spec: the database operations that the driver wrapper intercepts
(section 4.4).  The code of the wrapper (its connection, statement and transaction
proxies) is not in `common.go`. -/
inductive Operation where
  | Connect : Operation
  | Prepare : Operation
  | Exec : Operation
  | Query : Operation
  | Commit : Operation
  | Rollback : Operation
  | Close : Operation
  deriving DecidableEq, Repr

/-- Modelled from the spec: the name under which an operation of the wrapper is traced;
the spec names the operations and `opts.getOpName` makes the span name of it. -/
def Operation.name : Operation → String
  | .Connect => "Connect"
  | .Prepare => "Prepare"
  | .Exec => "Exec"
  | .Query => "Query"
  | .Commit => "Commit"
  | .Rollback => "Rollback"
  | .Close => "Close"

/-- Modelled from the spec: the span kind of an operation of the wrapper (section 4.4,
step 1): `Exec`, `Query` and `Connect` cross the network and use Exit spans, the
bookkeeping operations use Local spans. -/
def Operation.usesExitSpan : Operation → Bool
  | .Connect => true
  | .Exec => true
  | .Query => true
  | .Prepare => false
  | .Commit => false
  | .Rollback => false
  | .Close => false

/-- Modelled from the spec: what one call of the wrapper finds in the wrapped driver:
whether the driver implements the interface that the call needs (section 4.4, step 6), and
the error of the real call, nil when it succeeds (step 4). -/
structure DriverCall where
  supported : Bool
  outcome : Option GoError
  deriving DecidableEq, Repr

/-- Modelled from the spec: what a wrapped operation leaves: the error it returns, whether
the real driver was called, the span it opened for the operation, and the context for the
calls nested in it. -/
structure WrappedResult where
  err : Option GoError
  delegated : Bool
  span : Option SpanRef
  nested : Option Context
  deriving DecidableEq, Repr

/-- Modelled from the spec: one wrapped database operation of the driver wrapper (section
4.4, steps 1 to 6, and section 7), the wrapper's code being absent from `common.go`.
Without the capability the sentinel is returned and no span is created (step 6).  Else the
span is opened by `createSpan` or `createLocalSpan` (steps 1 and 2); when that fails the
call is given up with the tracer's error before the driver is touched (section 7, a).
Else the statement and the parameters are attached as tags (step 3), the call is forwarded
to the driver (step 4), the span is finished, and the driver's outcome is returned as it is
(step 5). -/
def wrappedOperation (dbTypeString : DBType → String) (op : Operation) (ctx : Context)
    (tracer : Tracer) (opts : Options) (statement parameters : Option String)
    (driver : DriverCall) (spans : List Span) : WrappedResult × List Span :=
  if driver.supported = false then
    ({ err := some ErrUnsupportedOp, delegated := false, span := none, nested := none }, spans)
  else
    let opened : (Option SpanRef × Option Context × Option GoError) × List Span :=
      if op.usesExitSpan = true then
        match createSpan dbTypeString ctx tracer opts op.name spans with
        | ((s, err), spans) => ((s, some ctx, err), spans)
      else
        createLocalSpan dbTypeString ctx tracer opts op.name spans
    match opened with
    | ((some s, nCtx, none), spans) =>
      let spans :=
        match statement with
        | some sql => Tag s tagDbStatement sql spans
        | none => spans
      let spans :=
        match parameters with
        | some args => Tag s tagDbSqlParameters args spans
        | none => spans
      let outcome := driver.outcome
      let spans := End s spans
      ({ err := outcome, delegated := true, span := some s, nested := nCtx }, spans)
    | ((_, _, some err), spans) =>
      ({ err := some err, delegated := false, span := none, nested := none }, spans)
    | ((none, _, none), spans) =>
      ({ err := none, delegated := false, span := none, nested := none }, spans)

/-! ## Facts about strings and lists -/

theorem utf8ByteSize_pos_iff (s : String) : s.utf8ByteSize > 0 ↔ s ≠ "" := by
  cases s with
  | mk cs =>
    cases cs with
    | nil => simp [String.utf8ByteSize, String.utf8ByteSize.go]
    | cons c cs =>
      have hc := Char.utf8Size_pos c
      have hne : (String.mk (c :: cs)) ≠ "" := by
        intro h
        have := congrArg String.data h
        simp at this
      simp only [String.utf8ByteSize, String.utf8ByteSize.go, gt_iff_lt, ne_eq, hne,
        not_false_eq_true, iff_true]
      omega

theorem stringsJoinRest_eq (sep : String) (rest : List String) (acc : String) :
    stringsJoinRest sep rest acc = acc ++ String.join (rest.flatMap (fun s => [sep, s])) := by
  induction rest generalizing acc with
  | nil => apply String.ext; simp [stringsJoinRest]
  | cons s rest ih =>
    apply String.ext
    simp [stringsJoinRest, ih, List.append_assoc]

theorem intersperse_cons_eq (sep : String) (e : String) (rest : List String) :
    (e :: rest).intersperse sep = e :: rest.flatMap (fun s => [sep, s]) := by
  induction rest generalizing e with
  | nil => rfl
  | cons s rest ih =>
    rw [List.intersperse_cons₂, ih]
    simp

/-- The call `strings.Join(elems, sep)` is the concatenation of `elems` with `sep` put
between every two neighbours. -/
theorem stringsJoin_eq_join_intersperse (elems : List String) (sep : String) :
    stringsJoin elems sep = String.join (elems.intersperse sep) := by
  cases elems with
  | nil => rfl
  | cons e rest =>
    rw [intersperse_cons_eq]
    simp only [stringsJoin, stringsJoinRest_eq]
    apply String.ext
    simp

theorem namedValueToValueStringLoop_eq (named : List NamedValue) (b : List String) :
    namedValueToValueStringLoop named b = b ++ named.map (fun p => sprintfV p.Value) := by
  induction named generalizing b with
  | nil => simp [namedValueToValueStringLoop]
  | cons p rest ih => simp [namedValueToValueStringLoop, ih]

theorem namedValueToValueLoop_unnamed (rest : List NamedValue) (n : Nat) (dargs : List Value)
    (hn : ∀ p ∈ rest, p.Name = "") (hlen : n + rest.length ≤ dargs.length) :
    namedValueToValueLoop rest n dargs =
      (some (dargs.take n ++ rest.map (fun p => p.Value) ++ dargs.drop (n + rest.length)), none) := by
  induction rest generalizing n dargs with
  | nil => simp [namedValueToValueLoop]
  | cons p rest ih =>
    have hp : p.Name = "" := hn p (List.mem_cons_self _ _)
    have hrest : ∀ q ∈ rest, q.Name = "" := fun q hq => hn q (List.mem_cons_of_mem _ hq)
    simp only [List.length_cons] at hlen
    have hlt : n < dargs.length := by omega
    rw [namedValueToValueLoop, if_neg (by rw [hp]; decide), ih (n + 1) _ hrest (by simp; omega)]
    simp only [List.map_cons, List.length_cons]
    congr 2
    rw [List.set_eq_take_append_cons_drop, if_pos hlt]
    have hl : (List.take n dargs).length = n := by simp; omega
    have h1 : List.take (n + 1) (List.take n dargs ++ p.Value :: List.drop (n + 1) dargs)
        = List.take n dargs ++ [p.Value] := by
      rw [List.take_append_eq_append_take, hl]
      simp
    have h2 : List.drop (n + 1 + rest.length) (List.take n dargs ++ p.Value :: List.drop (n + 1) dargs)
        = List.drop (n + (rest.length + 1)) dargs := by
      rw [List.drop_append_eq_append_drop, hl]
      have e1 : n + 1 + rest.length - n = rest.length + 1 := by omega
      rw [e1, List.drop_eq_nil_of_le (by simp; omega)]
      simp only [List.nil_append, List.drop_succ_cons, List.drop_drop]
      congr 1
      omega
    rw [h1, h2]
    simp

theorem namedValueToValueLoop_named (rest : List NamedValue) (n : Nat) (dargs : List Value)
    (h : ∃ p ∈ rest, p.Name ≠ "") :
    namedValueToValueLoop rest n dargs =
      (none, some (errorsNew "sql: driver does not support the use of Named Parameters")) := by
  induction rest generalizing n dargs with
  | nil => simp at h
  | cons q rest ih =>
    rw [namedValueToValueLoop]
    by_cases hq : q.Name = ""
    · rw [if_neg (by rw [hq]; decide)]
      apply ih
      obtain ⟨p, hp, hne⟩ := h
      rcases List.mem_cons.mp hp with rfl | hp
      · exact absurd hq hne
      · exact ⟨p, hp, hne⟩
    · rw [if_pos ((utf8ByteSize_pos_iff _).mpr hq)]

/-! ## The argument normalizer: the claims -/

/-- C3, counterexample: for the one-element list holding the parameter named `id`, the error
that `namedValueToValue` returns is not the sentinel `ErrUnsupportedOp`. -/
theorem namedValueToValue_error_not_sentinel :
    (∃ p ∈ [NamedValue.mk "id" 1 (Value.int64 7)], p.Name ≠ "") ∧
      (namedValueToValue [NamedValue.mk "id" 1 (Value.int64 7)]).2 ≠ some ErrUnsupportedOp := by
  decide

/-- C3, amended: for every list of `driver.NamedValue` in which at least one element has a
non-empty `Name`, at any position, `namedValueToValue` fails: it returns the nil list and a
new error whose text is "sql: driver does not support the use of Named Parameters"; this
error is not the sentinel `ErrUnsupportedOp`. -/
theorem namedValueToValue_named_fails (named : List NamedValue)
    (h : ∃ p ∈ named, p.Name ≠ "") :
    namedValueToValue named =
        (none, some (errorsNew "sql: driver does not support the use of Named Parameters")) ∧
      errorsNew "sql: driver does not support the use of Named Parameters" ≠ ErrUnsupportedOp :=
  ⟨namedValueToValueLoop_named named 0 _ h, by decide⟩

theorem namedValueToValue_named_fails_witness :
    namedValueToValue [NamedValue.mk "" 1 (Value.int64 1), NamedValue.mk "id" 2 (Value.int64 7)] =
        (none, some (errorsNew "sql: driver does not support the use of Named Parameters")) ∧
      errorsNew "sql: driver does not support the use of Named Parameters" ≠ ErrUnsupportedOp :=
  namedValueToValue_named_fails
    [NamedValue.mk "" 1 (Value.int64 1), NamedValue.mk "id" 2 (Value.int64 7)]
    ⟨NamedValue.mk "id" 2 (Value.int64 7), by decide, by decide⟩

/-- C4: for every list of `driver.NamedValue` in which every element has an empty `Name`,
`namedValueToValueString` returns the `%v` renderings of the elements' values, in the
original order, with one comma between every two neighbours and none before the first or
after the last; the empty list gives the empty string. -/
theorem namedValueToValueString_unnamed (named : List NamedValue)
    (_h : ∀ p ∈ named, p.Name = "") :
    namedValueToValueString named =
        String.join ((named.map (fun p => sprintfV p.Value)).intersperse ",") ∧
      (named = [] → namedValueToValueString named = "") := by
  constructor
  · simp only [namedValueToValueString, namedValueToValueStringLoop_eq, List.nil_append,
      stringsJoin_eq_join_intersperse]
  · rintro rfl
    rfl

theorem namedValueToValueString_unnamed_witness :
    (∀ p ∈ [NamedValue.mk "" 1 (Value.int64 1), NamedValue.mk "" 2 (Value.string "a")],
        p.Name = "") ∧
      namedValueToValueString
        [NamedValue.mk "" 1 (Value.int64 1), NamedValue.mk "" 2 (Value.string "a")] = "1,a" :=
  ⟨by decide,
    (namedValueToValueString_unnamed
      [NamedValue.mk "" 1 (Value.int64 1), NamedValue.mk "" 2 (Value.string "a")]
      (by decide)).1.trans (by decide)⟩

/-- C5: for every list of `driver.NamedValue` in which every element has an empty `Name`,
`namedValueToValue` returns a nil error and a list of the same length whose `i`-th element
is the `Value` of the `i`-th input element, for every index `i`. -/
theorem namedValueToValue_unnamed (named : List NamedValue)
    (h : ∀ p ∈ named, p.Name = "") :
    ∃ dargs : List Value, namedValueToValue named = (some dargs, none) ∧
      dargs.length = named.length ∧
      ∀ (i : Nat) (hi : i < named.length), dargs[i]? = some (named[i]).Value := by
  refine ⟨named.map (fun p => p.Value), ?_, by simp, ?_⟩
  · rw [namedValueToValue, namedValueToValueLoop_unnamed named 0 _ h (by simp)]
    simp
  · intro i hi
    simp [List.getElem?_map, List.getElem?_eq_getElem hi]

theorem namedValueToValue_unnamed_witness :
    ∃ dargs : List Value,
      namedValueToValue
          [NamedValue.mk "" 1 (Value.int64 1), NamedValue.mk "" 2 (Value.string "a")] =
        (some dargs, none) ∧
      dargs.length = 2 ∧
      ∀ (i : Nat) (hi : i < 2), dargs[i]? =
        some ([NamedValue.mk "" 1 (Value.int64 1), NamedValue.mk "" 2 (Value.string "a")][i]).Value :=
  namedValueToValue_unnamed
    [NamedValue.mk "" 1 (Value.int64 1), NamedValue.mk "" 2 (Value.string "a")] (by decide)

/-! ## The backtracking search and the language of a pattern -/

theorem run_repeat_zero (a : Regex) (max : Nat) (s : List Char) :
    (Regex.repeat a 0 max).run s = optionalRun a.run max s := by
  simp [Regex.run, repeatRun]

theorem run_repeat_zero_succ (a : Regex) (max : Nat) (s : List Char) :
    (Regex.repeat a 0 (max + 1)).run s
      = (a.run s).flatMap (Regex.repeat a 0 max).run ++ [s] := by
  simp only [Regex.run, repeatRun, Nat.sub_zero, optionalRun]

theorem run_repeat_succ (a : Regex) (min max : Nat) (s : List Char) :
    (Regex.repeat a (min + 1) (max + 1)).run s
      = (a.run s).flatMap (Regex.repeat a min max).run := by
  simp only [Regex.run, repeatRun, Nat.add_sub_add_right]

theorem starRun_sound (a : Regex)
    (ha : ∀ s rest, rest ∈ a.run s → ∃ m, s = m ++ rest ∧ a.Matches m)
    (fuel : Nat) (s rest : List Char) (h : rest ∈ starRun a.run fuel s) :
    ∃ m, s = m ++ rest ∧ (Regex.star a).Matches m := by
  induction fuel generalizing s with
  | zero =>
    simp only [starRun, List.mem_singleton] at h
    exact ⟨[], by simp [h], Regex.Matches.starNil⟩
  | succ fuel ih =>
    simp only [starRun, List.mem_append, List.mem_flatMap, List.mem_filter,
      List.mem_singleton] at h
    rcases h with ⟨t, ⟨ht, _⟩, hrest⟩ | h
    · obtain ⟨x, hx, hax⟩ := ha s t ht
      obtain ⟨y, hy, hay⟩ := ih t hrest
      exact ⟨x ++ y, by rw [hx, hy, List.append_assoc], Regex.Matches.starCons hax hay⟩
    · exact ⟨[], by simp [h], Regex.Matches.starNil⟩

/-- Soundness of the search: every remainder it lists is what a text of the language,
standing at the start of the input, leaves of the input. -/
theorem run_sound (re : Regex) (hwf : re.wellFormed = true) (s rest : List Char)
    (h : rest ∈ re.run s) : ∃ m, s = m ++ rest ∧ re.Matches m := by
  induction re generalizing s rest with
  | emptyMatch =>
    simp only [Regex.run, List.mem_singleton] at h
    exact ⟨[], by simp [h], Regex.Matches.emptyMatch⟩
  | literal c =>
    cases s with
    | nil => simp [Regex.run] at h
    | cons x t =>
      simp only [Regex.run] at h
      split at h
      · next hx =>
        simp only [List.mem_singleton] at h
        subst hx h
        exact ⟨[x], rfl, Regex.Matches.literal x⟩
      · simp at h
  | charRange lo hi =>
    cases s with
    | nil => simp [Regex.run] at h
    | cons x t =>
      simp only [Regex.run] at h
      split at h
      · next hx =>
        simp only [List.mem_singleton] at h
        subst h
        exact ⟨[x], rfl, Regex.Matches.charRange lo hi x hx.1 hx.2⟩
      · simp at h
  | anyCharNotNL =>
    cases s with
    | nil => simp [Regex.run] at h
    | cons x t =>
      simp only [Regex.run] at h
      split at h
      · simp at h
      · next hx =>
        simp only [List.mem_singleton] at h
        subst h
        exact ⟨[x], rfl, Regex.Matches.anyCharNotNL x hx⟩
  | concat a b iha ihb =>
    simp only [Regex.wellFormed, Bool.and_eq_true] at hwf
    simp only [Regex.run, List.mem_flatMap] at h
    obtain ⟨t, ht, hrest⟩ := h
    obtain ⟨x, hx, hax⟩ := iha hwf.1 s t ht
    obtain ⟨y, hy, hby⟩ := ihb hwf.2 t rest hrest
    exact ⟨x ++ y, by rw [hx, hy, List.append_assoc], Regex.Matches.concat hax hby⟩
  | alternate a b iha ihb =>
    simp only [Regex.wellFormed, Bool.and_eq_true] at hwf
    simp only [Regex.run, List.mem_append] at h
    rcases h with h | h
    · obtain ⟨x, hx, hax⟩ := iha hwf.1 s rest h
      exact ⟨x, hx, Regex.Matches.alternateLeft hax⟩
    · obtain ⟨x, hx, hbx⟩ := ihb hwf.2 s rest h
      exact ⟨x, hx, Regex.Matches.alternateRight hbx⟩
  | quest a iha =>
    simp only [Regex.wellFormed] at hwf
    simp only [Regex.run, List.mem_append, List.mem_singleton] at h
    rcases h with h | h
    · obtain ⟨x, hx, hax⟩ := iha hwf s rest h
      exact ⟨x, hx, Regex.Matches.questSome hax⟩
    · exact ⟨[], by simp [h], Regex.Matches.questNone⟩
  | star a iha =>
    simp only [Regex.wellFormed] at hwf
    simp only [Regex.run] at h
    exact starRun_sound a (iha hwf) _ s rest h
  | plus a iha =>
    simp only [Regex.wellFormed] at hwf
    simp only [Regex.run, List.mem_flatMap] at h
    obtain ⟨t, ht, hrest⟩ := h
    obtain ⟨x, hx, hax⟩ := iha hwf s t ht
    obtain ⟨y, hy, hay⟩ := starRun_sound a (iha hwf) _ t rest hrest
    exact ⟨x ++ y, by rw [hx, hy, List.append_assoc], Regex.Matches.plus hax hay⟩
  | «repeat» a min max iha =>
    simp only [Regex.wellFormed, Bool.and_eq_true, decide_eq_true_eq] at hwf
    obtain ⟨hwfa, hle⟩ := hwf
    induction min generalizing max s with
    | zero =>
      induction max generalizing s with
      | zero =>
        simp only [run_repeat_zero, optionalRun, List.mem_singleton] at h
        exact ⟨[], by simp [h], Regex.Matches.repeatZero⟩
      | succ max ihmax =>
        simp only [run_repeat_zero_succ, List.mem_append, List.mem_flatMap,
          List.mem_singleton] at h
        rcases h with ⟨t, ht, hrest⟩ | h
        · obtain ⟨x, hx, hax⟩ := iha hwfa s t ht
          obtain ⟨y, hy, hay⟩ := ihmax t hrest (Nat.zero_le _)
          exact ⟨x ++ y, by rw [hx, hy, List.append_assoc],
            Regex.Matches.repeatOptional hax hay⟩
        · exact ⟨[], by simp [h], Regex.Matches.repeatZero⟩
    | succ min ihmin =>
      cases max with
      | zero => omega
      | succ max =>
        simp only [run_repeat_succ, List.mem_flatMap] at h
        obtain ⟨t, ht, hrest⟩ := h
        obtain ⟨x, hx, hax⟩ := iha hwfa s t ht
        obtain ⟨y, hy, hay⟩ := ihmin max t hrest (by omega)
        exact ⟨x ++ y, by rw [hx, hy, List.append_assoc],
          Regex.Matches.repeatCompulsory hax hay⟩

theorem starRun_fuel (step : List Char → List (List Char)) (n : Nat) :
    ∀ (s : List Char) (f g : Nat), s.length ≤ n → s.length ≤ f → s.length ≤ g →
      starRun step f s = starRun step g s := by
  induction n with
  | zero =>
    intro s f g hs _ _
    have hnil : s = [] := List.length_eq_zero.mp (by omega)
    subst hnil
    have h0 : ∀ k, starRun step k [] = [[]] := by
      intro k
      cases k with
      | zero => rfl
      | succ k => simp [starRun]
    rw [h0, h0]
  | succ n ih =>
    intro s f g hs hf hg
    cases s with
    | nil =>
      have h0 : ∀ k, starRun step k [] = [[]] := by
        intro k
        cases k with
        | zero => rfl
        | succ k => simp [starRun]
      rw [h0, h0]
    | cons c t =>
      simp only [List.length_cons] at hs hf hg
      obtain ⟨f, rfl⟩ : ∃ k, f = k + 1 := ⟨f - 1, by omega⟩
      obtain ⟨g, rfl⟩ : ∃ k, g = k + 1 := ⟨g - 1, by omega⟩
      simp only [starRun]
      congr 1
      apply List.flatMap_congr
      intro u hu
      simp only [List.mem_filter, List.length_cons, decide_eq_true_eq] at hu
      exact ih u f g (by omega) (by omega) (by omega)

theorem mem_starRun_self (step : List Char → List (List Char)) (fuel : Nat) (s : List Char) :
    s ∈ starRun step fuel s := by
  cases fuel <;> simp [starRun]

/-- Completeness of the search: a text of the language that stands at the start of the
input is found, whatever follows it. -/
theorem run_complete {re : Regex} {m : List Char} (h : re.Matches m) :
    ∀ rest : List Char, rest ∈ re.run (m ++ rest) := by
  induction h with
  | emptyMatch => intro rest; simp [Regex.run]
  | literal c => intro rest; simp [Regex.run]
  | charRange lo hi x h1 h2 => intro rest; simp [Regex.run, h1, h2]
  | anyCharNotNL x hx => intro rest; simp [Regex.run, hx]
  | concat _ _ iha ihb =>
    intro rest
    simp only [Regex.run, List.mem_flatMap, List.append_assoc]
    exact ⟨_, iha _, ihb rest⟩
  | alternateLeft _ iha => intro rest; simp only [Regex.run, List.mem_append]; exact Or.inl (iha rest)
  | alternateRight _ ihb => intro rest; simp only [Regex.run, List.mem_append]; exact Or.inr (ihb rest)
  | questSome _ iha => intro rest; simp only [Regex.run, List.mem_append]; exact Or.inl (iha rest)
  | questNone => intro rest; simp [Regex.run]
  | starNil => intro rest; simp only [Regex.run, List.nil_append]; exact mem_starRun_self _ _ _
  | @starCons a x y _ _ iha ihs =>
    intro rest
    cases x with
    | nil => simpa using ihs rest
    | cons c x =>
      simp only [Regex.run, List.cons_append, List.length_cons, starRun, List.mem_append,
        List.mem_flatMap, List.mem_filter, List.mem_singleton, decide_eq_true_eq]
      left
      refine ⟨y ++ rest, ⟨?_, ?_⟩, ?_⟩
      · have := iha (y ++ rest)
        simpa using this
      · simp; omega
      · have := ihs rest
        simp only [Regex.run] at this
        rw [starRun_fuel a.run (y ++ rest).length (y ++ rest) _ (y ++ rest).length
          (le_refl _) (by simp) (le_refl _)]
        exact this
  | @plus a x y _ _ iha ihs =>
    intro rest
    simp only [Regex.run, List.mem_flatMap, List.append_assoc]
    refine ⟨y ++ rest, iha _, ?_⟩
    have := ihs rest
    simpa only [Regex.run] using this
  | repeatZero =>
    intro rest
    rw [run_repeat_zero]
    cases ‹Nat› <;> simp [optionalRun]
  | repeatOptional _ _ iha ihr =>
    intro rest
    simp only [run_repeat_zero_succ, List.mem_append, List.mem_flatMap, List.append_assoc]
    exact Or.inl ⟨_, iha _, ihr rest⟩
  | repeatCompulsory _ _ iha ihr =>
    intro rest
    simp only [run_repeat_succ, List.mem_flatMap, List.append_assoc]
    exact ⟨_, iha _, ihr rest⟩

theorem take_length_sub_of_append (m rest : List Char) :
    (m ++ rest).take ((m ++ rest).length - rest.length) = m := by
  simp

theorem matchAt_eq_none_iff (re : Regex) (s : List Char) :
    re.matchAt s = none ↔ re.run s = [] := by
  unfold Regex.matchAt
  split
  · next h => simp [h]
  · next rest l h => simp [h]

theorem matchAt_of_head (re : Regex) (m rest : List Char)
    (h : (re.run (m ++ rest)).head? = some rest) : re.matchAt (m ++ rest) = some m := by
  unfold Regex.matchAt
  split
  · next h0 => simp [h0] at h
  · next r l h0 =>
    simp only [h0, List.head?_cons, Option.some.injEq] at h
    subst h
    simp

theorem matchAt_sound (re : Regex) (hwf : re.wellFormed = true) (s m : List Char)
    (h : re.matchAt s = some m) :
    ∃ rest, s = m ++ rest ∧ re.Matches m ∧ (re.run s).head? = some rest := by
  unfold Regex.matchAt at h
  split at h
  · simp at h
  · next rest l h0 =>
    obtain ⟨x, hx, hmx⟩ := run_sound re hwf s rest (by simp [h0])
    simp only [Option.some.injEq] at h
    subst hx
    rw [take_length_sub_of_append] at h
    subst h
    exact ⟨rest, rfl, hmx, by simp [h0]⟩

theorem find_of_matchAt (re : Regex) (s m : List Char) (h : re.matchAt s = some m) :
    re.find s = some m := by
  cases s with
  | nil => simpa [Regex.find] using h
  | cons c t => simp [Regex.find, h]

/-- The search skips a stretch of input in which no match begins. -/
theorem find_skip (re : Regex) (pre t : List Char)
    (hpre : ∀ p1 c p2, pre = p1 ++ c :: p2 → re.run (c :: p2 ++ t) = []) :
    re.find (pre ++ t) = re.find t := by
  induction pre with
  | nil => rfl
  | cons c pre ih =>
    have h0 : re.matchAt (c :: pre ++ t) = none :=
      (matchAt_eq_none_iff _ _).mpr (by simpa using hpre [] c pre rfl)
    simp only [List.cons_append] at h0 ⊢
    rw [Regex.find, h0]
    apply ih
    intro p1 d p2 hp
    exact hpre (c :: p1) d p2 (by simp [hp])

/-- What `find` returns is a text of the language that stands in the input, and the
preferred match at its place. -/
theorem find_sound (re : Regex) (hwf : re.wellFormed = true) (s m : List Char)
    (h : re.find s = some m) :
    ∃ pre post, s = pre ++ m ++ post ∧ re.Matches m ∧ re.matchAt (m ++ post) = some m := by
  induction s with
  | nil =>
    simp only [Regex.find] at h
    obtain ⟨rest, hs, hm, _⟩ := matchAt_sound re hwf [] m h
    refine ⟨[], rest, by simpa using hs, hm, ?_⟩
    rw [← hs]; exact h
  | cons c t ih =>
    simp only [Regex.find] at h
    split at h
    · next m0 h0 =>
      simp only [Option.some.injEq] at h
      subst h
      obtain ⟨rest, hs, hm, _⟩ := matchAt_sound re hwf _ _ h0
      refine ⟨[], rest, by simpa using hs, hm, ?_⟩
      rw [← hs]; exact h0
    · obtain ⟨pre, post, hs, hm, hat⟩ := ih h
      exact ⟨c :: pre, post, by simp [hs], hm, hat⟩

/-- When `find` returns nothing, no stretch of the input is a text of the language. -/
theorem find_none (re : Regex) (s : List Char) (h : re.find s = none) :
    ∀ pre m post, s = pre ++ m ++ post → ¬ re.Matches m := by
  induction s with
  | nil =>
    intro pre m post hs hm
    simp only [Regex.find, matchAt_eq_none_iff] at h
    have hpre : pre = [] := by
      cases pre with
      | nil => rfl
      | cons c p => simp at hs
    subst hpre
    have := run_complete hm post
    rw [List.nil_append] at hs
    rw [← hs, h] at this
    simp at this
  | cons c t ih =>
    intro pre m post hs hm
    simp only [Regex.find] at h
    split at h
    · simp at h
    · next h0 =>
      cases pre with
      | nil =>
        have := run_complete hm post
        rw [List.nil_append] at hs
        rw [← hs, (matchAt_eq_none_iff _ _).mp h0] at this
        simp at this
      | cons d pre =>
        simp only [List.cons_append, List.cons.injEq] at hs
        exact ih h pre m post hs.2 hm

/-- A text of the language that stands in the input makes `find` return a match. -/
theorem find_isSome_of_matches (re : Regex) (pre m post : List Char) (hm : re.Matches m) :
    ∃ r, re.find (pre ++ m ++ post) = some r := by
  cases h : re.find (pre ++ m ++ post) with
  | some r => exact ⟨r, rfl⟩
  | none => exact absurd hm (find_none re _ h pre m post rfl)

/-! ## The language of the two patterns -/

theorem matches_literal_iff (c : Char) (m : List Char) :
    (Regex.literal c).Matches m ↔ m = [c] := by
  constructor
  · intro h; cases h; rfl
  · rintro rfl; exact Regex.Matches.literal c

theorem matches_charRange_iff (lo hi : Char) (m : List Char) :
    (Regex.charRange lo hi).Matches m ↔ ∃ x, m = [x] ∧ lo ≤ x ∧ x ≤ hi := by
  constructor
  · intro h; cases h with | charRange _ _ x h1 h2 => exact ⟨x, rfl, h1, h2⟩
  · rintro ⟨x, rfl, h1, h2⟩; exact Regex.Matches.charRange lo hi x h1 h2

theorem matches_concat_iff (a b : Regex) (m : List Char) :
    (Regex.concat a b).Matches m ↔ ∃ x y, m = x ++ y ∧ a.Matches x ∧ b.Matches y := by
  constructor
  · intro h; cases h with | concat ha hb => exact ⟨_, _, rfl, ha, hb⟩
  · rintro ⟨x, y, rfl, ha, hb⟩; exact Regex.Matches.concat ha hb

theorem matches_alternate_iff (a b : Regex) (m : List Char) :
    (Regex.alternate a b).Matches m ↔ a.Matches m ∨ b.Matches m := by
  constructor
  · intro h
    cases h with
    | alternateLeft ha => exact Or.inl ha
    | alternateRight hb => exact Or.inr hb
  · rintro (ha | hb)
    · exact Regex.Matches.alternateLeft ha
    · exact Regex.Matches.alternateRight hb

theorem matches_quest_iff (a : Regex) (m : List Char) :
    (Regex.quest a).Matches m ↔ m = [] ∨ a.Matches m := by
  constructor
  · intro h
    cases h with
    | questSome ha => exact Or.inr ha
    | questNone => exact Or.inl rfl
  · rintro (rfl | ha)
    · exact Regex.Matches.questNone
    · exact Regex.Matches.questSome ha

theorem matches_repeat_zero_zero (a : Regex) (m : List Char) :
    (Regex.repeat a 0 0).Matches m ↔ m = [] := by
  constructor
  · intro h; cases h; rfl
  · rintro rfl; exact Regex.Matches.repeatZero

theorem matches_repeat_zero_succ (a : Regex) (k : Nat) (m : List Char) :
    (Regex.repeat a 0 (k + 1)).Matches m ↔
      m = [] ∨ ∃ x y, m = x ++ y ∧ a.Matches x ∧ (Regex.repeat a 0 k).Matches y := by
  constructor
  · intro h
    cases h with
    | repeatZero => exact Or.inl rfl
    | repeatOptional ha hr => exact Or.inr ⟨_, _, rfl, ha, hr⟩
  · rintro (rfl | ⟨x, y, rfl, ha, hr⟩)
    · exact Regex.Matches.repeatZero
    · exact Regex.Matches.repeatOptional ha hr

theorem matches_repeat_succ_succ (a : Regex) (n k : Nat) (m : List Char) :
    (Regex.repeat a (n + 1) (k + 1)).Matches m ↔
      ∃ x y, m = x ++ y ∧ a.Matches x ∧ (Regex.repeat a n k).Matches y := by
  constructor
  · intro h
    cases h with
    | repeatCompulsory ha hr => exact ⟨_, _, rfl, ha, hr⟩
  · rintro ⟨x, y, rfl, ha, hr⟩
    exact Regex.Matches.repeatCompulsory ha hr

theorem char_le_iff (a b : Char) : a ≤ b ↔ a.toNat ≤ b.toNat := Iff.rfl

theorem isDigit_iff (c : Char) : c.isDigit = true ↔ '0' ≤ c ∧ c ≤ '9' := by
  simp only [Char.isDigit, Bool.and_eq_true, decide_eq_true_eq]
  rfl

theorem matches_digit_iff (m : List Char) :
    Regex.digit.Matches m ↔ ∃ x, m = [x] ∧ x.isDigit = true := by
  simp only [Regex.digit, matches_charRange_iff, isDigit_iff]

/-- Every text of the octet pattern is an octet: 1 to 3 digits of value at most 255. -/
theorem matches_octetRe {o : List Char} (h : octetRe.Matches o) : isOctetText o = true := by
  simp only [octetRe, matches_alternate_iff, matches_concat_iff, matches_literal_iff,
    matches_charRange_iff, matches_quest_iff, Regex.digit, matches_repeat_succ_succ,
    matches_repeat_zero_succ, matches_repeat_zero_zero] at h
  have e0 : '0'.toNat = 48 := rfl
  have e1 : '1'.toNat = 49 := rfl
  have e2 : '2'.toNat = 50 := rfl
  have e4 : '4'.toNat = 52 := rfl
  have e5 : '5'.toNat = 53 := rfl
  have e9 : '9'.toNat = 57 := rfl
  rcases h with ⟨x, y, rfl, rfl, (⟨x, y1, rfl, rfl, c, rfl, h1, h2⟩ |
      ⟨x, y1, rfl, ⟨c, rfl, h1, h2⟩, d, rfl, h3, h4⟩)⟩ |
    ⟨x, y, rfl, (rfl | ⟨c, rfl, h1, h2⟩), x', y1, rfl, ⟨d, rfl, h3, h4⟩,
      (rfl | ⟨x'', y'', rfl, ⟨e, rfl, h5, h6⟩, rfl⟩)⟩
  all_goals
    simp only [isOctetText, decimalValue, List.all_cons, List.all_nil, isDigit_iff,
      List.cons_append, List.nil_append, List.append_nil, List.length_cons, List.length_nil,
      List.foldl_cons, List.foldl_nil, Bool.and_eq_true, decide_eq_true_eq, Bool.and_true,
      char_le_iff] at *
    omega

theorem matches_repeat_digit {n k : Nat} {p : List Char}
    (h : (Regex.repeat Regex.digit n k).Matches p) :
    n ≤ p.length ∧ p.length ≤ k ∧ p.all Char.isDigit = true := by
  induction k generalizing n p with
  | zero =>
    cases n with
    | zero =>
      rw [matches_repeat_zero_zero] at h
      subst h
      simp
    | succ n => cases h
  | succ k ih =>
    cases n with
    | zero =>
      rw [matches_repeat_zero_succ] at h
      rcases h with rfl | ⟨x, y, rfl, hx, hy⟩
      · simp
      · obtain ⟨c, rfl, hc⟩ := (matches_digit_iff x).mp hx
        obtain ⟨_, h2, h3⟩ := ih hy
        simp only [List.singleton_append, List.length_cons, List.all_cons, hc, h3,
          Bool.and_self, and_true]
        omega
    | succ n =>
      rw [matches_repeat_succ_succ] at h
      obtain ⟨x, y, rfl, hx, hy⟩ := h
      obtain ⟨c, rfl, hc⟩ := (matches_digit_iff x).mp hx
      obtain ⟨h1, h2, h3⟩ := ih hy
      simp only [List.singleton_append, List.length_cons, List.all_cons, hc, h3,
        Bool.and_self, and_true]
      omega

set_option maxRecDepth 1000000 in
theorem octet_numerals :
    ∀ n < 256, ([] ∈ octetRe.run (Nat.repr n).data ∧ (Nat.repr n).data.all Char.isDigit = true) := by
  decide

/-- The numeral of a number up to 255, written without leading zeros, is a text of the
octet pattern. -/
theorem matches_octetRe_repr (n : Nat) (h : n ≤ 255) :
    octetRe.Matches (Nat.repr n).data ∧ (Nat.repr n).data.all Char.isDigit = true := by
  obtain ⟨h1, h2⟩ := octet_numerals n (by omega)
  obtain ⟨m, hm, hM⟩ := run_sound octetRe (by decide) _ _ h1
  rw [List.append_nil] at hm
  rw [hm]
  exact ⟨hM, hm ▸ h2⟩

/-- Two runs of digits that are each followed by a character that is no digit, and that
start the same text, are the same run. -/
theorem digits_split_unique (x y r r' : List Char) (c d : Char)
    (hx : x.all Char.isDigit = true) (hy : y.all Char.isDigit = true)
    (hc : c.isDigit = false) (hd : d.isDigit = false)
    (h : x ++ c :: r = y ++ d :: r') : x = y ∧ c = d ∧ r = r' := by
  induction x generalizing y with
  | nil =>
    cases y with
    | nil => simpa using h
    | cons e y =>
      simp only [List.nil_append, List.cons_append, List.cons.injEq] at h
      simp only [List.all_cons, Bool.and_eq_true] at hy
      rw [h.1, hy.1] at hc
      cases hc
  | cons a x ih =>
    cases y with
    | nil =>
      simp only [List.nil_append, List.cons_append, List.cons.injEq] at h
      simp only [List.all_cons, Bool.and_eq_true] at hx
      rw [← h.1, hx.1] at hd
      cases hd
    | cons e y =>
      simp only [List.cons_append, List.cons.injEq] at h
      simp only [List.all_cons, Bool.and_eq_true] at hx hy
      obtain ⟨h1, h2, h3⟩ := ih y hx.2 hy.2 h.2
      exact ⟨by rw [h.1, h1], h2, h3⟩

/-- The language of the IPV4 pattern: the texts `o1.o2.o3.o4:p` with four texts of the
octet pattern and a text `p` of `\d{1,5}`. -/
theorem matches_ipv4Re_iff (m : List Char) :
    ipv4Re.Matches m ↔ ∃ o1 o2 o3 o4 p, m = endpointText o1 o2 o3 o4 p ∧
      octetRe.Matches o1 ∧ octetRe.Matches o2 ∧ octetRe.Matches o3 ∧ octetRe.Matches o4 ∧
      (Regex.repeat Regex.digit 1 5).Matches p := by
  simp only [ipv4Re, matches_concat_iff, matches_repeat_succ_succ, matches_repeat_zero_zero,
    matches_literal_iff, endpointText]
  constructor
  · rintro ⟨o1, y, rfl, h1, x, y1, rfl, ⟨x1, y2, rfl, ⟨_, o2, rfl, rfl, h2⟩, x2, y3, rfl,
      ⟨_, o3, rfl, rfl, h3⟩, x3, y4, rfl, ⟨_, o4, rfl, rfl, h4⟩, rfl⟩, _, p, rfl, rfl, hp⟩
    exact ⟨o1, o2, o3, o4, p, by simp, h1, h2, h3, h4, hp⟩
  · rintro ⟨o1, o2, o3, o4, p, rfl, h1, h2, h3, h4, hp⟩
    exact ⟨o1, _, rfl, h1, ['.'] ++ o2 ++ (['.'] ++ o3 ++ (['.'] ++ o4 ++ [])), ':' :: p,
      by simp,
      ⟨_, _, rfl, ⟨_, _, rfl, rfl, h2⟩, _, _, rfl, ⟨_, _, rfl, rfl, h3⟩, _, _, rfl,
        ⟨_, _, rfl, rfl, h4⟩, rfl⟩, [':'], p, by simp, rfl, hp⟩

/-- The octets, the dots and the colon of the IPV4 pattern, without the port. -/
theorem matches_ipv4_head_iff (m : List Char) :
    (Regex.concat octetRe
        (.concat (.repeat (.concat (.literal '.') octetRe) 3 3) (.literal ':'))).Matches m ↔
      ∃ o1 o2 o3 o4, m = endpointText o1 o2 o3 o4 [] ∧
        octetRe.Matches o1 ∧ octetRe.Matches o2 ∧ octetRe.Matches o3 ∧ octetRe.Matches o4 := by
  simp only [matches_concat_iff, matches_repeat_succ_succ, matches_repeat_zero_zero,
    matches_literal_iff, endpointText]
  constructor
  · rintro ⟨o1, y, rfl, h1, x, y1, rfl, ⟨x1, y2, rfl, ⟨_, o2, rfl, rfl, h2⟩, x2, y3, rfl,
      ⟨_, o3, rfl, rfl, h3⟩, x3, y4, rfl, ⟨_, o4, rfl, rfl, h4⟩, rfl⟩, rfl⟩
    exact ⟨o1, o2, o3, o4, by simp, h1, h2, h3, h4⟩
  · rintro ⟨o1, o2, o3, o4, rfl, h1, h2, h3, h4⟩
    exact ⟨o1, _, rfl, h1, ['.'] ++ o2 ++ (['.'] ++ o3 ++ (['.'] ++ o4 ++ [])), [':'],
      by simp,
      ⟨_, _, rfl, ⟨_, _, rfl, rfl, h2⟩, _, _, rfl, ⟨_, _, rfl, rfl, h3⟩, _, _, rfl,
        ⟨_, _, rfl, rfl, h4⟩, rfl⟩, rfl⟩

theorem ipv4Re_run_eq (s : List Char) :
    ipv4Re.run s =
      ((Regex.concat octetRe
        (.concat (.repeat (.concat (.literal '.') octetRe) 3 3) (.literal ':'))).run s).flatMap
        (Regex.repeat Regex.digit 1 5).run := by
  simp only [ipv4Re, Regex.run, List.flatMap_assoc]

theorem octetText_digits {o : List Char} (h : isOctetText o = true) :
    o ≠ [] ∧ o.all Char.isDigit = true := by
  simp only [isOctetText, Bool.and_eq_true, decide_eq_true_eq] at h
  refine ⟨?_, h.1.2⟩
  rintro rfl
  simp at h

/-- Every text of the IPV4 pattern begins with a digit. -/
theorem matches_ipv4Re_head {m : List Char} (h : ipv4Re.Matches m) :
    ∃ c t, m = c :: t ∧ c.isDigit = true := by
  obtain ⟨o1, o2, o3, o4, p, rfl, h1, -⟩ := (matches_ipv4Re_iff m).mp h
  obtain ⟨hne, hd⟩ := octetText_digits (matches_octetRe h1)
  cases o1 with
  | nil => exact absurd rfl hne
  | cons c t =>
    simp only [List.all_cons, Bool.and_eq_true] at hd
    exact ⟨c, _, rfl, hd.1⟩

/-- No match of the IPV4 pattern begins at a character that is no digit. -/
theorem ipv4Re_run_nondigit (c : Char) (t : List Char) (hc : c.isDigit = false) :
    ipv4Re.run (c :: t) = [] := by
  rw [List.eq_nil_iff_forall_not_mem]
  intro rest hrest
  obtain ⟨m, hm, hM⟩ := run_sound ipv4Re (by decide) _ _ hrest
  obtain ⟨d, u, rfl, hd⟩ := matches_ipv4Re_head hM
  simp only [List.cons_append, List.cons.injEq] at hm
  rw [hm.1, hd] at hc
  cases hc

/-! ## The preferred match of the IPV4 pattern -/

theorem digit_run_cons (c : Char) (t : List Char) (hc : c.isDigit = true) :
    Regex.digit.run (c :: t) = [t] := by
  have h := (isDigit_iff c).mp hc
  simp [Regex.digit, Regex.run, h]

theorem digit_run_nondigit (post : List Char)
    (hpost : ∀ x, post.head? = some x → x.isDigit = false) :
    Regex.digit.run post = [] := by
  cases post with
  | nil => rfl
  | cons x t =>
    have hx := hpost x rfl
    have h : ¬ ('0' ≤ x ∧ x ≤ '9') := by
      rw [← isDigit_iff, hx]; simp
    simp [Regex.digit, Regex.run, h]

/-- The greedy optional rounds of `\d` take a whole run of digits first, when the run is not
longer than the rounds allowed and no digit follows it. -/
theorem optionalRun_digit_head (k : Nat) (p post : List Char)
    (hp : p.all Char.isDigit = true) (hk : p.length ≤ k)
    (hpost : ∀ x, post.head? = some x → x.isDigit = false) :
    ∃ l, optionalRun Regex.digit.run k (p ++ post) = post :: l := by
  induction p generalizing k with
  | nil =>
    cases k with
    | zero => exact ⟨[], rfl⟩
    | succ k =>
      refine ⟨[], ?_⟩
      simp [optionalRun, digit_run_nondigit post hpost]
  | cons c p ih =>
    simp only [List.all_cons, Bool.and_eq_true] at hp
    cases k with
    | zero => simp at hk
    | succ k =>
      obtain ⟨l, hl⟩ := ih k hp.2 (by simpa using hk)
      refine ⟨l ++ [c :: (p ++ post)], ?_⟩
      simp [optionalRun, digit_run_cons c _ hp.1, hl]

theorem port_run_head (p post : List Char) (hp1 : 1 ≤ p.length) (hp5 : p.length ≤ 5)
    (hp : p.all Char.isDigit = true)
    (hpost : ∀ x, post.head? = some x → x.isDigit = false) :
    ∃ l, (Regex.repeat Regex.digit 1 5).run (p ++ post) = post :: l := by
  cases p with
  | nil => simp at hp1
  | cons c p =>
    simp only [List.all_cons, Bool.and_eq_true] at hp
    obtain ⟨l, hl⟩ := optionalRun_digit_head 4 p post hp.2 (by simpa using hp5) hpost
    refine ⟨l, ?_⟩
    have e : (Regex.repeat Regex.digit 1 5).run (c :: p ++ post) =
        (Regex.digit.run (c :: (p ++ post))).flatMap (optionalRun Regex.digit.run 4) := rfl
    rw [e, digit_run_cons c _ hp.1]
    simp [hl]

theorem flatMap_head_of_all_eq {α β : Type} (l : List α) (f : α → List β) (t : α) (r : β)
    (rs : List β) (hne : l ≠ []) (hall : ∀ x ∈ l, x = t) (hf : f t = r :: rs) :
    (l.flatMap f).head? = some r := by
  cases l with
  | nil => exact absurd rfl hne
  | cons x l =>
    have hx : x = t := hall x (List.mem_cons_self _ _)
    subst hx
    simp [List.flatMap_cons, hf]

theorem dot_not_digit : '.'.isDigit = false := by decide

theorem colon_not_digit : ':'.isDigit = false := by decide

/-- The part of the IPV4 pattern before the port matches, at the start of `a.b.c.d:` and
what follows, the text `a.b.c.d:` and nothing else. -/
theorem ipv4_head_run (n1 n2 n3 n4 tail : List Char)
    (h1 : octetRe.Matches n1) (h2 : octetRe.Matches n2) (h3 : octetRe.Matches n3)
    (h4 : octetRe.Matches n4) :
    (tail ∈ (Regex.concat octetRe (.concat (.repeat (.concat (.literal '.') octetRe) 3 3)
        (.literal ':'))).run (endpointText n1 n2 n3 n4 [] ++ tail)) ∧
      ∀ rest ∈ (Regex.concat octetRe (.concat (.repeat (.concat (.literal '.') octetRe) 3 3)
        (.literal ':'))).run (endpointText n1 n2 n3 n4 [] ++ tail), rest = tail := by
  constructor
  · exact run_complete ((matches_ipv4_head_iff _).mpr ⟨n1, n2, n3, n4, rfl, h1, h2, h3, h4⟩) tail
  · intro rest hrest
    obtain ⟨m, hm, hM⟩ := run_sound _ (by decide) _ _ hrest
    obtain ⟨o1, o2, o3, o4, rfl, g1, g2, g3, g4⟩ := (matches_ipv4_head_iff m).mp hM
    have d1 := (octetText_digits (matches_octetRe h1)).2
    have d2 := (octetText_digits (matches_octetRe h2)).2
    have d3 := (octetText_digits (matches_octetRe h3)).2
    have d4 := (octetText_digits (matches_octetRe h4)).2
    have e1 := (octetText_digits (matches_octetRe g1)).2
    have e2 := (octetText_digits (matches_octetRe g2)).2
    have e3 := (octetText_digits (matches_octetRe g3)).2
    have e4 := (octetText_digits (matches_octetRe g4)).2
    simp only [endpointText, List.append_assoc, List.cons_append, List.nil_append] at hm
    obtain ⟨-, -, hm⟩ := digits_split_unique _ _ _ _ _ _ d1 e1 dot_not_digit dot_not_digit hm
    obtain ⟨-, -, hm⟩ := digits_split_unique _ _ _ _ _ _ d2 e2 dot_not_digit dot_not_digit hm
    obtain ⟨-, -, hm⟩ := digits_split_unique _ _ _ _ _ _ d3 e3 dot_not_digit dot_not_digit hm
    obtain ⟨-, -, hm⟩ :=
      digits_split_unique _ _ _ _ _ _ d4 e4 colon_not_digit colon_not_digit hm
    exact hm.symm

theorem endpointText_append (a b c d p q : List Char) :
    endpointText a b c d p ++ q = endpointText a b c d [] ++ (p ++ q) := by
  simp [endpointText]

/-- At the start of `a.b.c.d:p` followed by no digit, the preferred match of the IPV4
pattern is the whole of `a.b.c.d:p`. -/
theorem ipv4Re_matchAt_endpoint (n1 n2 n3 n4 p post : List Char)
    (h1 : octetRe.Matches n1) (h2 : octetRe.Matches n2) (h3 : octetRe.Matches n3)
    (h4 : octetRe.Matches n4)
    (hp1 : 1 ≤ p.length) (hp5 : p.length ≤ 5) (hp : p.all Char.isDigit = true)
    (hpost : ∀ x, post.head? = some x → x.isDigit = false) :
    ipv4Re.matchAt (endpointText n1 n2 n3 n4 p ++ post) = some (endpointText n1 n2 n3 n4 p) := by
  apply matchAt_of_head
  obtain ⟨hmem, hall⟩ := ipv4_head_run n1 n2 n3 n4 (p ++ post) h1 h2 h3 h4
  obtain ⟨l, hl⟩ := port_run_head p post hp1 hp5 hp hpost
  rw [ipv4Re_run_eq, endpointText_append]
  exact flatMap_head_of_all_eq _ _ (p ++ post) post l (List.ne_nil_of_mem hmem) hall hl

/-- The search of the IPV4 pattern in `pre ++ a.b.c.d:p ++ post`, with no digit in `pre`
and none at the start of `post`, finds `a.b.c.d:p`. -/
theorem ipv4Re_find_endpoint (pre n1 n2 n3 n4 p post : List Char)
    (h1 : octetRe.Matches n1) (h2 : octetRe.Matches n2) (h3 : octetRe.Matches n3)
    (h4 : octetRe.Matches n4)
    (hp1 : 1 ≤ p.length) (hp5 : p.length ≤ 5) (hp : p.all Char.isDigit = true)
    (hpre : pre.all (fun x => !x.isDigit) = true)
    (hpost : ∀ x, post.head? = some x → x.isDigit = false) :
    ipv4Re.find (pre ++ endpointText n1 n2 n3 n4 p ++ post) = some (endpointText n1 n2 n3 n4 p) := by
  rw [List.append_assoc, find_skip]
  · exact find_of_matchAt _ _ _
      (ipv4Re_matchAt_endpoint n1 n2 n3 n4 p post h1 h2 h3 h4 hp1 hp5 hp hpost)
  · intro p1 c p2 hsplit
    apply ipv4Re_run_nondigit
    rw [hsplit] at hpre
    simp only [List.all_append, List.all_cons, Bool.and_eq_true, Bool.not_eq_true',
      List.all_eq_true] at hpre
    exact hpre.2.1

/-! ## The DSN address extractor: the claims -/

/-- C6: for every DSN `pre ++ addr ++ post` where `addr` is `a.b.c.d:p` with `a`, `b`, `c`,
`d` the decimal numerals (without leading zeros) of numbers from 0 to 255 and `p` a run of
1 to 5 digits, where `pre` holds no digit and `post` does not begin with a digit,
`parseDsn(IPV4, dsn)` returns `addr` unmodified. -/
theorem parseDsn_ipv4_endpoint (pre post p : List Char) (a b c d : Nat)
    (ha : a ≤ 255) (hb : b ≤ 255) (hc : c ≤ 255) (hd : d ≤ 255)
    (hp1 : 1 ≤ p.length) (hp5 : p.length ≤ 5) (hp : p.all Char.isDigit = true)
    (hpre : pre.all (fun x => !x.isDigit) = true)
    (hpost : ∀ x, post.head? = some x → x.isDigit = false) :
    parseDsn DBType.IPV4
        (String.mk (pre ++ endpointText (Nat.repr a).data (Nat.repr b).data (Nat.repr c).data
          (Nat.repr d).data p ++ post)) =
      some (String.mk (endpointText (Nat.repr a).data (Nat.repr b).data (Nat.repr c).data
        (Nat.repr d).data p)) := by
  simp only [parseDsn, Regex.FindString]
  rw [ipv4Re_find_endpoint pre _ _ _ _ p post (matches_octetRe_repr a ha).1
    (matches_octetRe_repr b hb).1 (matches_octetRe_repr c hc).1 (matches_octetRe_repr d hd).1
    hp1 hp5 hp hpre hpost]

theorem parseDsn_ipv4_endpoint_witness :
    parseDsn DBType.IPV4 "192.168.1.10:5432?x=1" = some "192.168.1.10:5432" :=
  parseDsn_ipv4_endpoint [] "?x=1".data "5432".data 192 168 1 10 (by decide) (by decide)
    (by decide) (by decide) (by decide) (by decide) (by decide) (by decide) (by decide)

/-- A non-empty result of `parseDsn(IPV4, dsn)` is the match that the search found: a text
of the IPV4 pattern standing in `dsn`. -/
theorem parseDsn_ipv4_some (dsn r : String) (h : parseDsn DBType.IPV4 dsn = some r)
    (hne : r ≠ "") :
    ∃ pre post, dsn.data = pre ++ r.data ++ post ∧ ipv4Re.Matches r.data := by
  simp only [parseDsn, Regex.FindString, Option.some.injEq] at h
  split at h
  · next m hm =>
    obtain ⟨pre, post, hs, hM, -⟩ := find_sound ipv4Re (by decide) _ _ hm
    subst h
    exact ⟨pre, post, hs, hM⟩
  · exact absurd h.symm hne

/-- C7: for every DSN string, a non-empty result of `parseDsn(IPV4, dsn)` is a contiguous
substring of `dsn` of the form `o1.o2.o3.o4:p`, where each of `o1` to `o4` is a run of 1 to
3 decimal digits whose value is at most 255 and `p` is a non-empty run of decimal digits. -/
theorem parseDsn_ipv4_result_form (dsn r : String)
    (h : parseDsn DBType.IPV4 dsn = some r) (hne : r ≠ "") :
    ∃ pre post o1 o2 o3 o4 p, dsn.data = pre ++ r.data ++ post ∧
      r.data = endpointText o1 o2 o3 o4 p ∧
      isOctetText o1 = true ∧ isOctetText o2 = true ∧ isOctetText o3 = true ∧
      isOctetText o4 = true ∧ p ≠ [] ∧ p.all Char.isDigit = true := by
  obtain ⟨pre, post, hs, hM⟩ := parseDsn_ipv4_some dsn r h hne
  obtain ⟨o1, o2, o3, o4, p, hr, h1, h2, h3, h4, hp⟩ := (matches_ipv4Re_iff _).mp hM
  obtain ⟨hp1, -, hpd⟩ := matches_repeat_digit hp
  refine ⟨pre, post, o1, o2, o3, o4, p, hs, hr, matches_octetRe h1, matches_octetRe h2,
    matches_octetRe h3, matches_octetRe h4, ?_, hpd⟩
  rintro rfl
  simp at hp1

theorem parseDsn_ipv4_result_form_witness :
    ∃ pre post o1 o2 o3 o4 p,
      "db at 10.0.0.7:5432/x".data = pre ++ "10.0.0.7:5432".data ++ post ∧
      "10.0.0.7:5432".data = endpointText o1 o2 o3 o4 p ∧
      isOctetText o1 = true ∧ isOctetText o2 = true ∧ isOctetText o3 = true ∧
      isOctetText o4 = true ∧ p ≠ [] ∧ p.all Char.isDigit = true :=
  parseDsn_ipv4_result_form "db at 10.0.0.7:5432/x" "10.0.0.7:5432" (by decide) (by decide)

theorem decimalValue_foldl_lt (p : List Char) (hp : p.all Char.isDigit = true) (acc : Nat) :
    p.foldl (fun n c => 10 * n + (c.toNat - '0'.toNat)) acc < (acc + 1) * 10 ^ p.length := by
  induction p generalizing acc with
  | nil => simp
  | cons c p ih =>
    simp only [List.all_cons, Bool.and_eq_true] at hp
    have hc := (isDigit_iff c).mp hp.1
    rw [char_le_iff, char_le_iff] at hc
    have e0 : '0'.toNat = 48 := rfl
    have e9 : '9'.toNat = 57 := rfl
    have hd : 10 * acc + (c.toNat - '0'.toNat) + 1 ≤ (acc + 1) * 10 := by omega
    have := ih hp.2 (10 * acc + (c.toNat - '0'.toNat))
    calc List.foldl (fun n c => 10 * n + (c.toNat - '0'.toNat)) acc (c :: p)
        < (10 * acc + (c.toNat - '0'.toNat) + 1) * 10 ^ p.length := this
      _ ≤ ((acc + 1) * 10) * 10 ^ p.length := Nat.mul_le_mul_right _ hd
      _ = (acc + 1) * 10 ^ (c :: p).length := by
        rw [List.length_cons, Nat.pow_succ, Nat.mul_assoc, Nat.mul_comm 10]

/-- A run of at most `k` decimal digits writes a number below `10 ^ k`. -/
theorem decimalValue_lt (p : List Char) (k : Nat) (hp : p.all Char.isDigit = true)
    (hk : p.length ≤ k) : decimalValue p < 10 ^ k := by
  have h := decimalValue_foldl_lt p hp 0
  simp only [Nat.zero_add, Nat.one_mul] at h
  exact Nat.lt_of_lt_of_le h (Nat.pow_le_pow_right (by decide) hk)

theorem dropWhile_digits_sep (o rest : List Char) (sep : Char)
    (ho : o.all Char.isDigit = true) :
    (o ++ sep :: rest).dropWhile (fun c => c != ':') =
      (sep :: rest).dropWhile (fun c => c != ':') := by
  induction o with
  | nil => rfl
  | cons c o ih =>
    simp only [List.all_cons, Bool.and_eq_true] at ho
    have hc : (c != ':') = true := by
      rw [bne_iff_ne]
      rintro rfl
      exact absurd ho.1 (by decide)
    rw [List.cons_append, List.dropWhile_cons]
    simp only [hc, if_true]
    exact ih ho.2

/-- The port part of `o1.o2.o3.o4:p` is `p`, when the octets are runs of digits. -/
theorem portPart_endpointText (o1 o2 o3 o4 p : List Char)
    (h1 : o1.all Char.isDigit = true) (h2 : o2.all Char.isDigit = true)
    (h3 : o3.all Char.isDigit = true) (h4 : o4.all Char.isDigit = true) :
    portPart (endpointText o1 o2 o3 o4 p) = p := by
  have hdot : ∀ l : List Char, ('.' :: l).dropWhile (fun c => c != ':') =
      l.dropWhile (fun c => c != ':') := fun l => by
    rw [List.dropWhile_cons]; rfl
  have hcolon : ∀ l : List Char, (':' :: l).dropWhile (fun c => c != ':') = ':' :: l :=
    fun l => by rw [List.dropWhile_cons]; rfl
  simp only [portPart, endpointText]
  rw [dropWhile_digits_sep o1 _ _ h1, hdot, dropWhile_digits_sep o2 _ _ h2, hdot,
    dropWhile_digits_sep o3 _ _ h3, hdot, dropWhile_digits_sep o4 _ _ h4, hcolon]
  rfl

/-- C8, counterexample: the results for `10.0.0.1:0` and for `10.0.0.1:70000` are not empty
and their port parts have the values 0 and 70000, outside 1..65535. -/
theorem parseDsn_ipv4_port_out_of_range :
    (∃ r, parseDsn DBType.IPV4 "10.0.0.1:0" = some r ∧ r ≠ "" ∧
        ¬ (1 ≤ decimalValue (portPart r.data) ∧ decimalValue (portPart r.data) ≤ 65535)) ∧
      (∃ r, parseDsn DBType.IPV4 "10.0.0.1:70000" = some r ∧ r ≠ "" ∧
        ¬ (1 ≤ decimalValue (portPart r.data) ∧ decimalValue (portPart r.data) ≤ 65535)) :=
  ⟨⟨"10.0.0.1:0", by decide, by decide, by decide⟩,
    ⟨"10.0.0.1:70000", by decide, by decide, by decide⟩⟩

/-- C8, amended: for every DSN string, if the result of `parseDsn(IPV4, dsn)` is not empty
then its port part (the digits after the `:`) is a run of 1 to 5 decimal digits, so that its
value is in the range 0..99999. -/
theorem parseDsn_ipv4_port_range (dsn r : String)
    (h : parseDsn DBType.IPV4 dsn = some r) (hne : r ≠ "") :
    1 ≤ (portPart r.data).length ∧ (portPart r.data).length ≤ 5 ∧
      (portPart r.data).all Char.isDigit = true ∧ decimalValue (portPart r.data) ≤ 99999 := by
  obtain ⟨pre, post, -, hM⟩ := parseDsn_ipv4_some dsn r h hne
  obtain ⟨o1, o2, o3, o4, p, hr, h1, h2, h3, h4, hp⟩ := (matches_ipv4Re_iff _).mp hM
  obtain ⟨hp1, hp5, hpd⟩ := matches_repeat_digit hp
  rw [hr, portPart_endpointText o1 o2 o3 o4 p (octetText_digits (matches_octetRe h1)).2
    (octetText_digits (matches_octetRe h2)).2 (octetText_digits (matches_octetRe h3)).2
    (octetText_digits (matches_octetRe h4)).2]
  have hlt := decimalValue_lt p 5 hpd hp5
  exact ⟨hp1, hp5, hpd, by omega⟩

theorem parseDsn_ipv4_port_range_witness :
    1 ≤ (portPart "10.0.0.1:70000".data).length ∧
      (portPart "10.0.0.1:70000".data).length ≤ 5 ∧
      (portPart "10.0.0.1:70000".data).all Char.isDigit = true ∧
      decimalValue (portPart "10.0.0.1:70000".data) ≤ 99999 :=
  parseDsn_ipv4_port_range "tcp://10.0.0.1:70000/db" "10.0.0.1:70000" (by decide) (by decide)

/-- C9: for every dialect value other than `MYSQL` and `IPV4` and every DSN string,
`parseDsn` returns the empty string. -/
theorem parseDsn_other_dialect (dbType : DBType) (dsn : String)
    (h1 : dbType ≠ DBType.MYSQL) (h2 : dbType ≠ DBType.IPV4) :
    parseDsn dbType dsn = some "" := by
  cases dbType with
  | MYSQL => exact absurd rfl h1
  | IPV4 => exact absurd rfl h2
  | other name => rfl

theorem parseDsn_other_dialect_witness :
    parseDsn (DBType.other "postgres") "postgres://u:p@10.0.0.1:5432/db" = some "" :=
  parseDsn_other_dialect (DBType.other "postgres") "postgres://u:p@10.0.0.1:5432/db"
    (by decide) (by decide)

/-- Every text `o1.o2.o3.o4:p` holds a colon. -/
theorem colon_mem_endpointText (o1 o2 o3 o4 p : List Char) :
    ':' ∈ endpointText o1 o2 o3 o4 p := by
  simp [endpointText]

/-- C10: for every DSN string, `parseDsn(IPV4, dsn)` returns a string (it does not fault),
and it returns the empty string whenever no substring of `dsn` matches the IPV4 pattern, in
particular for every `dsn` without a `:` and for every `dsn` without a digit. -/
theorem parseDsn_ipv4_no_match (dsn : String) :
    (∃ r, parseDsn DBType.IPV4 dsn = some r) ∧
      ((∀ pre m post, dsn.data = pre ++ m ++ post → ¬ ipv4Re.Matches m) →
        parseDsn DBType.IPV4 dsn = some "") ∧
      (':' ∉ dsn.data → parseDsn DBType.IPV4 dsn = some "") ∧
      ((∀ c ∈ dsn.data, c.isDigit = false) → parseDsn DBType.IPV4 dsn = some "") := by
  have key : (∀ pre m post, dsn.data = pre ++ m ++ post → ¬ ipv4Re.Matches m) →
      parseDsn DBType.IPV4 dsn = some "" := by
    intro hno
    simp only [parseDsn, Regex.FindString, Option.some.injEq]
    split
    · next m hm =>
      obtain ⟨pre, post, hs, hM, -⟩ := find_sound ipv4Re (by decide) _ _ hm
      exact absurd hM (hno pre m post hs)
    · rfl
  refine ⟨⟨_, rfl⟩, key, ?_, ?_⟩
  · intro hcolon
    apply key
    intro pre m post hs hM
    obtain ⟨o1, o2, o3, o4, p, rfl, -⟩ := (matches_ipv4Re_iff m).mp hM
    apply hcolon
    rw [hs]
    simp [colon_mem_endpointText]
  · intro hdigit
    apply key
    intro pre m post hs hM
    obtain ⟨c, t, rfl, hc⟩ := matches_ipv4Re_head hM
    have := hdigit c (by rw [hs]; simp)
    rw [hc] at this
    cases this

theorem parseDsn_ipv4_no_match_witness :
    parseDsn DBType.IPV4 "user:pass@/db" = some "" ∧
      parseDsn DBType.IPV4 "tcp 10.0.0.1 port 5432" = some "" :=
  ⟨(parseDsn_ipv4_no_match "user:pass@/db").2.2.2 (by decide),
    (parseDsn_ipv4_no_match "tcp 10.0.0.1 port 5432").2.2.1 (by decide)⟩

/-- C1, the code at a failing input: in the DSN `user:p(ss@tcp(127.0.0.1:3306)/db` the
address group holds `127.0.0.1:3306`, and `parseDsn(MYSQL, dsn)` returns
`ss@tcp(127.0.0.1:3306`, the text from the first `(` of the DSN to its last `)`. -/
theorem parseDsn_mysql_paren_in_password :
    parseDsn DBType.MYSQL "user:p(ss@tcp(127.0.0.1:3306)/db" = some "ss@tcp(127.0.0.1:3306" ∧
      parseDsn DBType.MYSQL "user:p(ss@tcp(127.0.0.1:3306)/db" ≠ some "127.0.0.1:3306" := by
  decide

/-- C2, the code at a failing input: the DSN `user:pass@/db` has no parenthesized group, and
`parseDsn(MYSQL, dsn)` panics on it (the slice `addr[1 : len(addr)-1]` of the empty match is
out of range) instead of returning the empty string; so it does on the empty DSN. -/
theorem parseDsn_mysql_no_group_panics :
    parseDsn DBType.MYSQL "user:pass@/db" = none ∧ parseDsn DBType.MYSQL "" = none := by
  decide

/-! ## The argument normalizer: names, errors and the legacy rendering -/

theorem unnamedParamsFrom_map_Value (ordinal : Int) (vs : List Value) :
    (unnamedParamsFrom ordinal vs).map (fun p => p.Value) = vs := by
  induction vs generalizing ordinal with
  | nil => rfl
  | cons v vs ih => simp [unnamedParamsFrom, ih]

theorem namedValueToValueString_eq (named : List NamedValue) :
    namedValueToValueString named =
      String.join ((named.map (fun p => sprintfV p.Value)).intersperse ",") := by
  simp only [namedValueToValueString, namedValueToValueStringLoop_eq, List.nil_append,
    stringsJoin_eq_join_intersperse]

theorem argsToStringLoop_eq (args : List Value) (sb : String) :
    argsToStringLoop args sb = sb ++ String.join (args.map (fun v => sprintfV v ++ ", ")) := by
  induction args generalizing sb with
  | nil => apply String.ext; simp [argsToStringLoop]
  | cons v args ih =>
    apply String.ext
    simp [argsToStringLoop, ih, List.append_assoc]

theorem join_intersperse_append (sep : String) (l : List String) (hl : l ≠ []) :
    String.join (l.intersperse sep) ++ sep = String.join (l.map (fun s => s ++ sep)) := by
  induction l with
  | nil => exact absurd rfl hl
  | cons e rest ih =>
    cases rest with
    | nil => apply String.ext; simp
    | cons f rest =>
      have := congrArg String.data (ih (by simp))
      apply String.ext
      simp only [String.data_append, String.data_join, List.intersperse_cons₂, List.map_cons,
        List.flatten_cons, List.append_assoc] at this ⊢
      rw [this]

/-- Either some parameter is named and `namedValueToValue` returns the nil list and its
error, or no parameter is named and it returns a list and the nil error. -/
theorem namedValueToValue_cases (named : List NamedValue) :
    ((∃ p ∈ named, p.Name ≠ "") ∧ namedValueToValue named =
        (none, some (errorsNew "sql: driver does not support the use of Named Parameters"))) ∨
      ((∀ p ∈ named, p.Name = "") ∧
        namedValueToValue named = (some (named.map (fun p => p.Value)), none)) := by
  by_cases h : ∃ p ∈ named, p.Name ≠ ""
  · exact Or.inl ⟨h, namedValueToValueLoop_named named 0 _ h⟩
  · right
    have hall : ∀ p ∈ named, p.Name = "" := by
      intro p hp
      by_contra hne
      exact h ⟨p, hp, hne⟩
    refine ⟨hall, ?_⟩
    rw [namedValueToValue, namedValueToValueLoop_unnamed named 0 _ hall (by simp)]
    simp

theorem exists_named_congr (named named' : List NamedValue)
    (h : named'.map (fun p => p.Name) = named.map (fun p => p.Name)) :
    (∃ p ∈ named', p.Name ≠ "") → ∃ p ∈ named, p.Name ≠ "" := by
  rintro ⟨p, hp, hne⟩
  have hmem : p.Name ∈ named'.map (fun p => p.Name) := List.mem_map.mpr ⟨p, hp, rfl⟩
  rw [h] at hmem
  obtain ⟨q, hq, hqn⟩ := List.mem_map.mp hmem
  exact ⟨q, hq, by rw [hqn]; exact hne⟩

/-- C11, counterexample: for the values `1` and `"a"`, `argsToString` gives `1, a, ` and
`namedValueToValueString` gives `1,a` for the unnamed parameters that carry them; the first
is not the second, nor the second with a trailing `,` or `, `. -/
theorem argsToString_differs_inside :
    argsToString [Value.int64 1, Value.string "a"] = "1, a, " ∧
      namedValueToValueString (unnamedParams [Value.int64 1, Value.string "a"]) = "1,a" ∧
      argsToString [Value.int64 1, Value.string "a"] ≠
        namedValueToValueString (unnamedParams [Value.int64 1, Value.string "a"]) ∧
      argsToString [Value.int64 1, Value.string "a"] ≠
        namedValueToValueString (unnamedParams [Value.int64 1, Value.string "a"]) ++ "," ∧
      argsToString [Value.int64 1, Value.string "a"] ≠
        namedValueToValueString (unnamedParams [Value.int64 1, Value.string "a"]) ++ ", " := by
  decide

/-- C11, amended: for every list of values `vs`, `argsToString(vs)` renders the same values
as `namedValueToValueString` does for the unnamed parameters carrying `vs`, each in its
default string form and in order, but it puts `, ` (a comma and a space) between them where
`namedValueToValueString` puts `,`, and for a non-empty list it ends with one trailing
`, `. -/
theorem argsToString_rendering (vs : List Value) :
    argsToString vs =
        String.join ((vs.map sprintfV).intersperse ", ") ++ (if vs = [] then "" else ", ") ∧
      namedValueToValueString (unnamedParams vs) =
        String.join ((vs.map sprintfV).intersperse ",") := by
  constructor
  · rw [argsToString, argsToStringLoop_eq]
    by_cases h : vs = []
    · subst h; rfl
    · rw [if_neg h, join_intersperse_append ", " _ (by simpa using h)]
      apply String.ext
      simp [List.map_map, Function.comp_def]
  · rw [namedValueToValueString_eq]
    have h2 : (unnamedParams vs).map (fun p => sprintfV p.Value) = vs.map sprintfV := by
      have e : (unnamedParams vs).map (fun p => sprintfV p.Value) =
          ((unnamedParams vs).map (fun p => p.Value)).map sprintfV := by
        rw [List.map_map]; rfl
      rw [e, unnamedParams, unnamedParamsFrom_map_Value]
    rw [h2]

/-- C18: for every list of `driver.NamedValue`, `namedValueToValue` returns an error if and
only if some element has a non-empty `Name`; when it returns an error the returned list is
nil; and whether it fails, and with which error, is the same for every list with the same
names, whatever the values and ordinals. -/
theorem namedValueToValue_error_iff (named : List NamedValue) :
    ((namedValueToValue named).2 ≠ none ↔ ∃ p ∈ named, p.Name ≠ "") ∧
      ((namedValueToValue named).2 ≠ none → (namedValueToValue named).1 = none) ∧
      (∀ named' : List NamedValue,
        named'.map (fun p => p.Name) = named.map (fun p => p.Name) →
          (namedValueToValue named').2 = (namedValueToValue named).2 ∧
            ((namedValueToValue named').1 = none ↔ (namedValueToValue named).1 = none)) := by
  refine ⟨?_, ?_, ?_⟩
  · rcases namedValueToValue_cases named with ⟨h, e⟩ | ⟨h, e⟩
    · rw [e]; simp only [ne_eq, reduceCtorEq, not_false_eq_true, true_iff]; exact h
    · rw [e]
      simp only [ne_eq, not_true_eq_false, false_iff, not_exists, not_and, not_not]
      exact h
  · rcases namedValueToValue_cases named with ⟨_, e⟩ | ⟨_, e⟩
    · rw [e]; simp
    · rw [e]; simp
  · intro named' hnames
    rcases namedValueToValue_cases named with ⟨h, e⟩ | ⟨h, e⟩
    · rcases namedValueToValue_cases named' with ⟨h', e'⟩ | ⟨h', e'⟩
      · rw [e, e']; simp
      · obtain ⟨p, hp, hne⟩ := exists_named_congr named' named hnames.symm h
        exact absurd (h' p hp) hne
    · rcases namedValueToValue_cases named' with ⟨h', e'⟩ | ⟨h', e'⟩
      · obtain ⟨p, hp, hne⟩ := exists_named_congr named named' hnames h'
        exact absurd (h p hp) hne
      · rw [e, e']; simp

theorem namedValueToValue_error_iff_witness :
    (namedValueToValue [NamedValue.mk "id" 9 (Value.string "x")]).2 =
        (namedValueToValue [NamedValue.mk "id" 1 (Value.int64 7)]).2 ∧
      ((namedValueToValue [NamedValue.mk "id" 9 (Value.string "x")]).1 = none ↔
        (namedValueToValue [NamedValue.mk "id" 1 (Value.int64 7)]).1 = none) :=
  (namedValueToValue_error_iff [NamedValue.mk "id" 1 (Value.int64 7)]).2.2
    [NamedValue.mk "id" 9 (Value.string "x")] (by decide)

/-- C20: `namedValueToValueString` ignores the names: two lists of `driver.NamedValue` of
equal length whose elements have pairwise equal values give the same string, whatever their
names and ordinals; a list with named parameters is rendered as the unnamed parameters that
carry its values. -/
theorem namedValueToValueString_ignores_names (named named' : List NamedValue)
    (hlen : named.length = named'.length)
    (hval : ∀ (i : Nat) (h : i < named.length) (h' : i < named'.length),
      (named[i]).Value = (named'[i]).Value) :
    namedValueToValueString named = namedValueToValueString named' ∧
      namedValueToValueString named =
        namedValueToValueString (unnamedParams (named.map (fun p => p.Value))) := by
  have hmap : named.map (fun p => sprintfV p.Value) = named'.map (fun p => sprintfV p.Value) := by
    apply List.ext_getElem
    · simp [hlen]
    · intro i h1 h2
      simp only [List.length_map] at h1 h2
      simp only [List.getElem_map]
      rw [hval i h1 h2]
  constructor
  · rw [namedValueToValueString_eq, namedValueToValueString_eq, hmap]
  · rw [namedValueToValueString_eq, namedValueToValueString_eq]
    have e : (unnamedParams (named.map (fun p => p.Value))).map (fun p => sprintfV p.Value) =
        named.map (fun p => sprintfV p.Value) := by
      have e1 : (unnamedParams (named.map (fun p => p.Value))).map (fun p => sprintfV p.Value) =
          ((unnamedParams (named.map (fun p => p.Value))).map (fun p => p.Value)).map
            sprintfV := by
        rw [List.map_map]; rfl
      rw [e1, unnamedParams, unnamedParamsFrom_map_Value, List.map_map]
      rfl
    rw [e]

theorem namedValueToValueString_ignores_names_witness :
    namedValueToValueString
        [NamedValue.mk "id" 1 (Value.int64 7), NamedValue.mk "" 2 (Value.string "a")] =
      namedValueToValueString
        [NamedValue.mk "" 5 (Value.int64 7), NamedValue.mk "name" 6 (Value.string "a")] ∧
      namedValueToValueString
        [NamedValue.mk "id" 1 (Value.int64 7), NamedValue.mk "" 2 (Value.string "a")] =
      namedValueToValueString (unnamedParams
        ([NamedValue.mk "id" 1 (Value.int64 7), NamedValue.mk "" 2 (Value.string "a")].map
          (fun p => p.Value))) :=
  namedValueToValueString_ignores_names
    [NamedValue.mk "id" 1 (Value.int64 7), NamedValue.mk "" 2 (Value.string "a")]
    [NamedValue.mk "" 5 (Value.int64 7), NamedValue.mk "name" 6 (Value.string "a")]
    (by decide) (by
      intro i h h'
      have hi : i < 2 := h
      match i, hi with
      | 0, _ => rfl
      | 1, _ => rfl)

/-! ## The MYSQL pattern -/

theorem matches_anyCharNotNL_iff (m : List Char) :
    Regex.anyCharNotNL.Matches m ↔ ∃ x, m = [x] ∧ x ≠ '\n' := by
  constructor
  · intro h; cases h with | anyCharNotNL x hx => exact ⟨x, rfl, hx⟩
  · rintro ⟨x, rfl, hx⟩; exact Regex.Matches.anyCharNotNL x hx

theorem matches_plus_iff (a : Regex) (m : List Char) :
    (Regex.plus a).Matches m ↔ ∃ x y, m = x ++ y ∧ a.Matches x ∧ (Regex.star a).Matches y := by
  constructor
  · intro h; cases h with | plus ha hs => exact ⟨_, _, rfl, ha, hs⟩
  · rintro ⟨x, y, rfl, ha, hs⟩; exact Regex.Matches.plus ha hs

/-- Every text of the MYSQL pattern is a `(`, at least one character, and a `)`. -/
theorem matches_mysqlRe {m : List Char} (h : mysqlRe.Matches m) :
    ∃ x, x ≠ [] ∧ m = '(' :: (x ++ [')']) := by
  simp only [mysqlRe, matches_concat_iff, matches_literal_iff, matches_plus_iff,
    matches_anyCharNotNL_iff] at h
  obtain ⟨_, _, rfl, rfl, _, _, rfl, ⟨_, y, rfl, ⟨c, rfl, -⟩, -⟩, rfl⟩ := h
  exact ⟨c :: y, by simp, by simp⟩

theorem anyCharNotNL_run_cons (c : Char) (t : List Char) (hc : c ≠ '\n') :
    Regex.anyCharNotNL.run (c :: t) = [t] := by
  simp [Regex.run, hc]

theorem literal_run_cons_self (c : Char) (t : List Char) :
    (Regex.literal c).run (c :: t) = [t] := by
  simp [Regex.run]

theorem literal_run_cons_ne (c x : Char) (t : List Char) (h : x ≠ c) :
    (Regex.literal c).run (x :: t) = [] := by
  simp [Regex.run, h]

/-- After the rounds of `.*` in a text without `)`, the literal `\)` matches nowhere. -/
theorem starRun_any_close_nil (fuel : Nat) (post : List Char) (hpost : ')' ∉ post) :
    (starRun Regex.anyCharNotNL.run fuel post).flatMap (Regex.literal ')').run = [] := by
  rw [List.eq_nil_iff_forall_not_mem]
  intro rest hrest
  obtain ⟨t, ht, hmem⟩ := List.mem_flatMap.mp hrest
  obtain ⟨m, hm, -⟩ := starRun_sound Regex.anyCharNotNL
    (fun s r hr => run_sound Regex.anyCharNotNL rfl s r hr) fuel post t ht
  cases t with
  | nil => simp [Regex.run] at hmem
  | cons x u =>
    by_cases hx : x = ')'
    · subst hx
      exact hpost (by rw [hm]; simp)
    · rw [literal_run_cons_ne _ _ _ hx] at hmem
      simp at hmem

/-- The greedy `.*` followed by `\)` stops first at the last `)` that it can reach: in
`addr ++ ")" ++ post`, with no newline in `addr` and no `)` in `post`, the first remainder
is `post`. -/
theorem starRun_any_close_head (addr post : List Char) (fuel : Nat)
    (hfuel : (addr ++ ')' :: post).length ≤ fuel) (haddr : '\n' ∉ addr) (hpost : ')' ∉ post) :
    ∃ l, (starRun Regex.anyCharNotNL.run fuel (addr ++ ')' :: post)).flatMap
      (Regex.literal ')').run = post :: l := by
  induction addr generalizing fuel with
  | nil =>
    cases fuel with
    | zero => simp at hfuel
    | succ fuel =>
      refine ⟨[], ?_⟩
      simp only [List.nil_append, starRun, anyCharNotNL_run_cons ')' post (by decide),
        List.filter_cons, List.length_cons, Nat.lt_succ_self, decide_True, if_true,
        List.filter_nil, List.flatMap_cons, List.flatMap_nil, List.append_nil,
        List.flatMap_append, starRun_any_close_nil fuel post hpost, List.nil_append,
        literal_run_cons_self]
  | cons a addr ih =>
    cases fuel with
    | zero => simp at hfuel
    | succ fuel =>
      have ha : a ≠ '\n' := fun h => haddr (by simp [h])
      have haddr' : '\n' ∉ addr := fun h => haddr (List.mem_cons_of_mem _ h)
      obtain ⟨l, hl⟩ := ih fuel (by simpa using hfuel) haddr'
      refine ⟨l ++ (Regex.literal ')').run (a :: (addr ++ ')' :: post)), ?_⟩
      simp only [List.cons_append, starRun, anyCharNotNL_run_cons a _ ha,
        List.filter_cons, List.length_cons, Nat.lt_succ_self, decide_True, if_true,
        List.filter_nil, List.flatMap_cons, List.flatMap_nil, List.append_nil,
        List.flatMap_append, hl, List.cons_append]

/-- At a `(` followed by `addr`, a `)` and `post`, with `addr` not empty and without a
newline and `post` without `)`, the preferred match of the MYSQL pattern is `(addr)`. -/
theorem mysqlRe_matchAt_group (addr post : List Char) (hne : addr ≠ [])
    (haddr : '\n' ∉ addr) (hpost : ')' ∉ post) :
    mysqlRe.matchAt (('(' :: (addr ++ [')'])) ++ post) = some ('(' :: (addr ++ [')'])) := by
  apply matchAt_of_head
  cases addr with
  | nil => exact absurd rfl hne
  | cons c addr =>
    have hc : c ≠ '\n' := fun h => haddr (by simp [h])
    have haddr' : '\n' ∉ addr := fun h => haddr (List.mem_cons_of_mem _ h)
    obtain ⟨l, hl⟩ := starRun_any_close_head addr post (addr ++ ')' :: post).length
      (le_refl _) haddr' hpost
    have e : mysqlRe.run (('(' :: (c :: addr ++ [')'])) ++ post) =
        (starRun Regex.anyCharNotNL.run (addr ++ ')' :: post).length
          (addr ++ ')' :: post)).flatMap (Regex.literal ')').run := by
      simp only [mysqlRe, Regex.run, List.cons_append, List.append_assoc, List.nil_append,
        if_true, List.flatMap_cons, List.flatMap_nil, List.append_nil, hc, if_false]
    rw [e, hl]
    rfl

theorem mysqlRe_run_not_open (c : Char) (t : List Char) (hc : c ≠ '(') :
    mysqlRe.run (c :: t) = [] := by
  simp [mysqlRe, Regex.run, hc]

/-- The search of the MYSQL pattern in `pre ++ "(" ++ addr ++ ")" ++ post`, with no `(` in
`pre`, `addr` not empty and without a newline and no `)` in `post`, finds `(addr)`. -/
theorem mysqlRe_find_group (pre addr post : List Char) (hpre : '(' ∉ pre) (hne : addr ≠ [])
    (haddr : '\n' ∉ addr) (hpost : ')' ∉ post) :
    mysqlRe.find (pre ++ (('(' :: (addr ++ [')'])) ++ post)) = some ('(' :: (addr ++ [')'])) := by
  rw [find_skip]
  · exact find_of_matchAt _ _ _ (mysqlRe_matchAt_group addr post hne haddr hpost)
  · intro p1 c p2 hsplit
    apply mysqlRe_run_not_open
    rintro rfl
    exact hpre (by rw [hsplit]; simp)

/-- The slice `addr[1 : len(addr)-1]` of a text `(x)` is `x`. -/
theorem sliceString_group (x : List Char) :
    sliceString (String.mk ('(' :: (x ++ [')']))) 1
      (((String.mk ('(' :: (x ++ [')']))).utf8ByteSize : Int) - 1) = some (String.mk x) := by
  have hlen : (String.mk ('(' :: (x ++ [')']))).utf8ByteSize = String.utf8Len x + 2 := by
    simp only [String.utf8ByteSize_mk, String.utf8Len_cons, String.utf8Len_append,
      String.utf8Len_nil]
    have h1 : '('.utf8Size = 1 := rfl
    have h2 : ')'.utf8Size = 1 := rfl
    omega
  have hex := String.extract_of_valid ['('] x [')']
  have h1 : String.utf8Len ['('] = 1 := rfl
  rw [h1] at hex
  simp only [List.singleton_append, List.cons_append, List.nil_append] at hex
  unfold sliceString
  rw [hlen, if_pos (by omega)]
  have e : ((((String.utf8Len x + 2 : Nat) : Int) - 1).toNat) = 1 + String.utf8Len x := by omega
  have e1 : (1 : Int).toNat = 1 := rfl
  rw [e, e1, hex]

/-- The slice `addr[1 : len(addr)-1]` of the empty string panics. -/
theorem sliceString_empty : sliceString "" 1 ((("" : String).utf8ByteSize : Int) - 1) = none := by
  decide

/-- A `)` cannot follow a `(` in a text that has no `(` before a certain `(` and no `)`
after it. -/
theorem no_close_after_open (p x q pre post : List Char) (hpre : '(' ∉ pre)
    (hpost : ')' ∉ post) (h : p ++ '(' :: (x ++ ')' :: q) = pre ++ '(' :: post) : False := by
  rcases List.append_eq_append_iff.mp h with ⟨a, ha, hb⟩ | ⟨c, hc, hd⟩
  · cases a with
    | nil =>
      simp only [List.nil_append, List.cons.injEq, true_and] at hb
      exact hpost (by rw [← hb]; simp)
    | cons y a =>
      simp only [List.cons_append, List.cons.injEq] at hb
      exact hpre (by rw [ha, ← hb.1]; simp)
  · cases c with
    | nil =>
      simp only [List.nil_append, List.cons.injEq, true_and] at hd
      exact hpost (by rw [hd]; simp)
    | cons y c =>
      simp only [List.cons_append, List.cons.injEq] at hd
      exact hpost (by rw [hd.2]; simp)

/-- What `parseDsn(MYSQL, dsn)` does, by the outcome of the search: without a match it
panics, and with the match `(x)` it returns `x`. -/
theorem parseDsn_mysql_cases (dsn : String) :
    (mysqlRe.find dsn.data = none ∧ parseDsn DBType.MYSQL dsn = none) ∨
      ∃ pre x post, x ≠ [] ∧ dsn.data = pre ++ '(' :: (x ++ [')']) ++ post ∧
        mysqlRe.find dsn.data = some ('(' :: (x ++ [')'])) ∧
        parseDsn DBType.MYSQL dsn = some (String.mk x) := by
  cases hf : mysqlRe.find dsn.data with
  | none =>
    left
    refine ⟨rfl, ?_⟩
    simp only [parseDsn, Regex.FindString, hf]
    exact sliceString_empty
  | some m =>
    right
    obtain ⟨pre, post, hs, hM, -⟩ := find_sound mysqlRe (by decide) _ _ hf
    obtain ⟨x, hx, rfl⟩ := matches_mysqlRe hM
    refine ⟨pre, x, post, hx, hs, rfl, ?_⟩
    simp only [parseDsn, Regex.FindString, hf]
    exact sliceString_group x

/-- C16, counterexample: the DSN `tcp(a)/db(x` contains a `(` with no `)` after it, and
`parseDsn(MYSQL, dsn)` returns `a` (the pattern matches the earlier group `(a)`). -/
theorem parseDsn_mysql_unterminated_after_group :
    (∃ pre post, "tcp(a)/db(x".data = pre ++ '(' :: post ∧ ')' ∉ post) ∧
      parseDsn DBType.MYSQL "tcp(a)/db(x" = some "a" :=
  ⟨⟨"tcp(a)/db".data, "x".data, by decide, by decide⟩, by decide⟩

/-- C16, amended: for every DSN string that contains a `(` and has no `)` after its first
`(`, `parseDsn(MYSQL, dsn)` indexes out of bounds: the pattern finds no match, and the slice
`addr[1 : len(addr)-1]` of the empty match panics. -/
theorem parseDsn_mysql_unterminated (dsn : String) (pre post : List Char)
    (hdsn : dsn.data = pre ++ '(' :: post) (hpre : '(' ∉ pre) (hpost : ')' ∉ post) :
    mysqlRe.FindString dsn = "" ∧ parseDsn DBType.MYSQL dsn = none := by
  rcases parseDsn_mysql_cases dsn with ⟨hf, hp⟩ | ⟨p, x, q, -, hs, -, -⟩
  · refine ⟨?_, hp⟩
    simp only [Regex.FindString, hf]
  · exfalso
    rw [hdsn] at hs
    apply no_close_after_open p x q pre post hpre hpost
    rw [hs]
    simp

theorem parseDsn_mysql_unterminated_witness :
    mysqlRe.FindString "user:pass@tcp(127.0.0.1:3306/db" = "" ∧
      parseDsn DBType.MYSQL "user:pass@tcp(127.0.0.1:3306/db" = none :=
  parseDsn_mysql_unterminated "user:pass@tcp(127.0.0.1:3306/db" "user:pass@tcp".data
    "127.0.0.1:3306/db".data (by decide) (by decide) (by decide)

/-- C17: for all strings `pre`, `addr`, `post` such that `pre` contains no `(`, `post`
contains no `)`, and `addr` is not empty and contains no newline,
`parseDsn(MYSQL, pre ++ "(" ++ addr ++ ")" ++ post)` is `addr`, also when `addr` itself
contains parentheses: the result runs from just after the first `(` to just before the
last `)`. -/
theorem parseDsn_mysql_greedy_span (pre addr post : List Char) (hpre : '(' ∉ pre)
    (hpost : ')' ∉ post) (hne : addr ≠ []) (hnl : '\n' ∉ addr) :
    parseDsn DBType.MYSQL (String.mk (pre ++ ['('] ++ addr ++ [')'] ++ post)) =
      some (String.mk addr) := by
  have e : pre ++ ['('] ++ addr ++ [')'] ++ post = pre ++ (('(' :: (addr ++ [')'])) ++ post) := by
    simp
  simp only [parseDsn, Regex.FindString]
  rw [e, mysqlRe_find_group pre addr post hpre hne hnl hpost]
  exact sliceString_group addr

theorem parseDsn_mysql_greedy_span_witness :
    parseDsn DBType.MYSQL "tcp(a)/db?x=(b)" = some "a)/db?x=(b" :=
  parseDsn_mysql_greedy_span "tcp".data "a)/db?x=(b".data [] (by decide) (by decide)
    (by decide) (by decide)

/-- C19: for every DSN string on which `parseDsn(MYSQL, dsn)` returns a value `r`, `r` is
not empty and `"(" ++ r ++ ")"` occurs as a contiguous substring of `dsn`; so the MYSQL
dialect never returns the empty string: it returns a non-empty string or it panics. -/
theorem parseDsn_mysql_result (dsn r : String) (h : parseDsn DBType.MYSQL dsn = some r) :
    r ≠ "" ∧ (∃ pre post, dsn.data = pre ++ ['('] ++ r.data ++ [')'] ++ post) ∧
      parseDsn DBType.MYSQL dsn ≠ some "" := by
  rcases parseDsn_mysql_cases dsn with ⟨-, hp⟩ | ⟨pre, x, post, hx, hs, -, hp⟩
  · rw [hp] at h
    cases h
  · rw [hp] at h
    simp only [Option.some.injEq] at h
    subst h
    have hne : String.mk x ≠ "" := by
      intro hcontra
      exact hx (congrArg String.data hcontra)
    refine ⟨hne, ⟨pre, post, by simp [hs]⟩, ?_⟩
    rw [hp]
    intro hcontra
    exact hne (Option.some.inj hcontra)

theorem parseDsn_mysql_result_witness :
    "127.0.0.1:3306" ≠ "" ∧
      (∃ pre post, "user:pass@tcp(127.0.0.1:3306)/db".data =
        pre ++ ['('] ++ "127.0.0.1:3306".data ++ [')'] ++ post) ∧
      parseDsn DBType.MYSQL "user:pass@tcp(127.0.0.1:3306)/db" ≠ some "" :=
  parseDsn_mysql_result "user:pass@tcp(127.0.0.1:3306)/db" "127.0.0.1:3306" (by decide)

/-! ## The span factory: the claims -/

theorem updateSpan_last (f : Span → Span) (spans : List Span) (sp : Span) :
    updateSpan f spans.length (spans ++ [sp]) = spans ++ [f sp] := by
  induction spans with
  | nil => rfl
  | cons x rest ih => simp [updateSpan, ih]

/-- The call `tracer.CreateLocalSpan` succeeds exactly when the tracer does not refuse the
context, and then the new span, no-op or recording, is the last of the store. -/
theorem CreateLocalSpan_ok (tracer : Tracer) (ctx nCtx : Context) (options : List SpanOption)
    (spans : List Span) (s : SpanRef)
    (h : (tracer.CreateLocalSpan ctx options spans).1 = Except.ok (s, nCtx)) :
    tracer.createError ctx = none ∧ s = spans.length ∧
      tracer.CreateLocalSpan ctx options spans =
        (Except.ok (s, nCtx),
          spans ++ [if tracer.noop ctx = true then Span.noopSpan
            else options.foldl (fun sp opt => opt.apply sp) Span.fresh]) := by
  unfold Tracer.CreateLocalSpan at h ⊢
  cases hc : tracer.createError ctx with
  | some err => simp [hc] at h
  | none =>
    simp only [hc, Except.ok.injEq, Prod.mk.injEq] at h ⊢
    obtain ⟨h1, h2⟩ := h
    exact ⟨trivial, h1.symm, ⟨h1, h2⟩, trivial⟩

theorem CreateLocalSpan_error (tracer : Tracer) (ctx : Context) (options : List SpanOption)
    (spans : List Span) (e : GoError)
    (h : (tracer.CreateLocalSpan ctx options spans).1 = Except.error e) :
    tracer.CreateLocalSpan ctx options spans = (Except.error e, spans) := by
  unfold Tracer.CreateLocalSpan at h ⊢
  cases hc : tracer.createError ctx with
  | some err =>
    simp only [hc, Except.error.injEq] at h ⊢
    rw [h]
  | none => simp [hc] at h

/-- C12, counterexample: a tracer that answers by a no-op span creates the span with a nil
error, and `createSpan` returns that span with a nil error; the span is not of type Exit,
has neither the operation name, the peer, the component id nor the layer of the call, and
has no tag. -/
theorem createSpan_noop_not_tagged :
    ((Tracer.mk (fun _ => none) (fun _ => true)).CreateLocalSpan (Context.mk none)
        [SpanOption.WithSpanType SpanType.Exit,
          SpanOption.WithOperationName
            ((Options.mk DBType.MYSQL componentIDMysql "127.0.0.1:3306"
              (fun op => "mysql/" ++ op)).getOpName "query")] []).1 =
        Except.ok (0, Context.mk (some 0)) ∧
      ∃ sp : Span,
        createSpan (fun _ => "mysql") (Context.mk none)
            (Tracer.mk (fun _ => none) (fun _ => true))
            (Options.mk DBType.MYSQL componentIDMysql "127.0.0.1:3306"
              (fun op => "mysql/" ++ op)) "query" [] = ((some 0, none), [sp]) ∧
          sp.spanType ≠ SpanType.Exit ∧ sp.operationName ≠ "mysql/query" ∧
          sp.peer ≠ "127.0.0.1:3306" ∧ sp.componentID ≠ 5012 ∧
          sp.layer ≠ SpanLayer.Database ∧ sp.tags = [] :=
  ⟨rfl, Span.noopSpan, by decide, by decide, by decide, by decide, by decide, by decide,
    by decide⟩

/-- C12, amended: for every context, options bundle `opts` and operation name `op`,
whenever the tracer's span creation succeeds, `createSpan` returns, with a nil error, the
span that the tracer created, and the spans that were there before are as they were.  When
the span is a recording span, it is of type Exit, its operation name is
`opts.getOpName(op)`, its peer is `opts.peer`, its component id is `opts.componentID`, its
layer is Database, and its tags are exactly `db.type = string(opts.dbType)` and
`db.instance = opts.peer`.  When the tracer answered by a no-op span, none of this is set
on it. -/
theorem createSpan_success (dbTypeString : DBType → String) (ctx nCtx : Context)
    (tracer : Tracer) (opts : Options) (op : String) (spans : List Span) (s : SpanRef)
    (h : (tracer.CreateLocalSpan ctx
      [SpanOption.WithSpanType SpanType.Exit,
        SpanOption.WithOperationName (opts.getOpName op)] spans).1 = Except.ok (s, nCtx)) :
    (tracer.noop ctx = false →
      createSpan dbTypeString ctx tracer opts op spans =
        ((some s, none),
          spans ++ [{ spanType := SpanType.Exit, operationName := opts.getOpName op,
                      peer := opts.peer, componentID := opts.componentID,
                      layer := SpanLayer.Database,
                      tags := [("db.type", dbTypeString opts.dbType),
                        ("db.instance", opts.peer)],
                      ended := 0, noop := false }])) ∧
      (tracer.noop ctx = true →
        createSpan dbTypeString ctx tracer opts op spans =
          ((some s, none), spans ++ [Span.noopSpan])) ∧
      s = spans.length := by
  obtain ⟨-, hs, hcall⟩ := CreateLocalSpan_ok tracer ctx nCtx _ spans s h
  subst hs
  refine ⟨?_, ?_, rfl⟩
  · intro hn
    unfold createSpan
    rw [hcall]
    simp [hn, SetPeer, SetComponent, SetSpanLayer, Tag, updateSpan_last, SpanOption.apply,
      Span.fresh, tagDbType, tagDbInstance]
  · intro hn
    unfold createSpan
    rw [hcall]
    simp [hn, SetPeer, SetComponent, SetSpanLayer, Tag, updateSpan_last, Span.noopSpan]

theorem createSpan_success_witness :
    createSpan (fun _ => "mysql") (Context.mk none)
        (Tracer.mk (fun _ => none) (fun _ => false))
        (Options.mk DBType.MYSQL componentIDMysql "127.0.0.1:3306" (fun op => "mysql/" ++ op))
        "query" [] =
      ((some 0, none),
        [] ++ [{ spanType := SpanType.Exit, operationName := "mysql/query",
                 peer := "127.0.0.1:3306", componentID := 5012,
                 layer := SpanLayer.Database,
                 tags := [("db.type", "mysql"), ("db.instance", "127.0.0.1:3306")],
                 ended := 0, noop := false }]) :=
  (createSpan_success (fun _ => "mysql") (Context.mk none) (Context.mk (some 0))
    (Tracer.mk (fun _ => none) (fun _ => false))
    (Options.mk DBType.MYSQL componentIDMysql "127.0.0.1:3306" (fun op => "mysql/" ++ op))
    "query" [] 0 rfl).1 rfl

/-- C13, counterexample: a tracer that answers by a no-op span creates the span with a nil
error, and `createLocalSpan` returns that span with a nil error; the span has neither the
operation name, the component id nor the layer of the call, and has no tag. -/
theorem createLocalSpan_noop_not_tagged :
    ((Tracer.mk (fun _ => none) (fun _ => true)).CreateLocalSpan (Context.mk none)
        [SpanOption.WithSpanType SpanType.Local,
          SpanOption.WithOperationName
            ((Options.mk DBType.MYSQL componentIDMysql "127.0.0.1:3306"
              (fun op => "mysql/" ++ op)).getOpName "prepare")] []).1 =
        Except.ok (0, Context.mk (some 0)) ∧
      ∃ sp : Span,
        createLocalSpan (fun _ => "mysql") (Context.mk none)
            (Tracer.mk (fun _ => none) (fun _ => true))
            (Options.mk DBType.MYSQL componentIDMysql "127.0.0.1:3306"
              (fun op => "mysql/" ++ op)) "prepare" [] =
            ((some 0, some (Context.mk (some 0)), none), [sp]) ∧
          sp.noop = true ∧ sp.operationName ≠ "mysql/prepare" ∧ sp.componentID ≠ 5012 ∧
          sp.layer ≠ SpanLayer.Database ∧ sp.tags = [] :=
  ⟨rfl, Span.noopSpan, by decide, by decide, by decide, by decide, by decide, by decide⟩

/-- C13, amended: for every context, options bundle `opts` and operation name `op`,
whenever the tracer's span creation succeeds, `createLocalSpan` returns, with a nil error,
the span that the tracer created and exactly the context that the tracer returned for it.
When the span is a recording span, it is of type Local, its operation name is
`opts.getOpName(op)`, its component id is `opts.componentID`, its layer is Database, and
its tags are `db.type = string(opts.dbType)` and `db.instance = opts.peer`, as for
`createSpan`.  When the tracer answered by a no-op span, none of this is set on it. -/
theorem createLocalSpan_success (dbTypeString : DBType → String) (ctx nCtx : Context)
    (tracer : Tracer) (opts : Options) (op : String) (spans : List Span) (s : SpanRef)
    (h : (tracer.CreateLocalSpan ctx
      [SpanOption.WithSpanType SpanType.Local,
        SpanOption.WithOperationName (opts.getOpName op)] spans).1 = Except.ok (s, nCtx)) :
    (tracer.noop ctx = false →
      createLocalSpan dbTypeString ctx tracer opts op spans =
        ((some s, some nCtx, none),
          spans ++ [{ spanType := SpanType.Local, operationName := opts.getOpName op,
                      peer := "", componentID := opts.componentID,
                      layer := SpanLayer.Database,
                      tags := [("db.type", dbTypeString opts.dbType),
                        ("db.instance", opts.peer)],
                      ended := 0, noop := false }])) ∧
      (tracer.noop ctx = true →
        createLocalSpan dbTypeString ctx tracer opts op spans =
          ((some s, some nCtx, none), spans ++ [Span.noopSpan])) ∧
      s = spans.length := by
  obtain ⟨-, hs, hcall⟩ := CreateLocalSpan_ok tracer ctx nCtx _ spans s h
  subst hs
  refine ⟨?_, ?_, rfl⟩
  · intro hn
    unfold createLocalSpan
    rw [hcall]
    simp [hn, SetComponent, SetSpanLayer, Tag, updateSpan_last, SpanOption.apply,
      Span.fresh, tagDbType, tagDbInstance]
  · intro hn
    unfold createLocalSpan
    rw [hcall]
    simp [hn, SetComponent, SetSpanLayer, Tag, updateSpan_last, Span.noopSpan]

theorem createLocalSpan_success_witness :
    createLocalSpan (fun _ => "mysql") (Context.mk none)
        (Tracer.mk (fun _ => none) (fun _ => false))
        (Options.mk DBType.MYSQL componentIDMysql "127.0.0.1:3306" (fun op => "mysql/" ++ op))
        "prepare" [] =
      ((some 0, some (Context.mk (some 0)), none),
        [] ++ [{ spanType := SpanType.Local, operationName := "mysql/prepare",
                 peer := "", componentID := 5012,
                 layer := SpanLayer.Database,
                 tags := [("db.type", "mysql"), ("db.instance", "127.0.0.1:3306")],
                 ended := 0, noop := false }]) :=
  (createLocalSpan_success (fun _ => "mysql") (Context.mk none) (Context.mk (some 0))
    (Tracer.mk (fun _ => none) (fun _ => false))
    (Options.mk DBType.MYSQL componentIDMysql "127.0.0.1:3306" (fun op => "mysql/" ++ op))
    "prepare" [] 0 rfl).1 rfl

/-- C14: for every input, if the tracer's span creation fails with the error `e`, then
`createSpan` returns `(nil, e)` and `createLocalSpan` returns `(nil, nil, e)`: the error is
the tracer's own, and the store of spans is as it was before the call, so that no span has
been given a peer, a component, a layer or a tag. -/
theorem createSpan_failure (dbTypeString : DBType → String) (ctx : Context)
    (tracer : Tracer) (opts : Options) (op : String) (spans : List Span) (e : GoError)
    (h1 : (tracer.CreateLocalSpan ctx
      [SpanOption.WithSpanType SpanType.Exit,
        SpanOption.WithOperationName (opts.getOpName op)] spans).1 = Except.error e)
    (h2 : (tracer.CreateLocalSpan ctx
      [SpanOption.WithSpanType SpanType.Local,
        SpanOption.WithOperationName (opts.getOpName op)] spans).1 = Except.error e) :
    createSpan dbTypeString ctx tracer opts op spans = ((none, some e), spans) ∧
      createLocalSpan dbTypeString ctx tracer opts op spans = ((none, none, some e), spans) := by
  constructor
  · unfold createSpan
    rw [CreateLocalSpan_error tracer ctx _ spans e h1]
  · unfold createLocalSpan
    rw [CreateLocalSpan_error tracer ctx _ spans e h2]

theorem createSpan_failure_witness :
    createSpan (fun _ => "mysql") (Context.mk none)
        (Tracer.mk (fun _ => some (errorsNew "tracer closed")) (fun _ => false))
        (Options.mk DBType.MYSQL componentIDMysql "127.0.0.1:3306" (fun op => "mysql/" ++ op))
        "query" [Span.fresh] = ((none, some (errorsNew "tracer closed")), [Span.fresh]) ∧
      createLocalSpan (fun _ => "mysql") (Context.mk none)
        (Tracer.mk (fun _ => some (errorsNew "tracer closed")) (fun _ => false))
        (Options.mk DBType.MYSQL componentIDMysql "127.0.0.1:3306" (fun op => "mysql/" ++ op))
        "query" [Span.fresh] =
          ((none, none, some (errorsNew "tracer closed")), [Span.fresh]) :=
  createSpan_failure (fun _ => "mysql") (Context.mk none)
    (Tracer.mk (fun _ => some (errorsNew "tracer closed")) (fun _ => false))
    (Options.mk DBType.MYSQL componentIDMysql "127.0.0.1:3306" (fun op => "mysql/" ++ op))
    "query" [Span.fresh] (errorsNew "tracer closed") rfl rfl

/-! ## The driver wrapper: the claim -/

theorem createSpan_created (dbTypeString : DBType → String) (ctx : Context) (tracer : Tracer)
    (opts : Options) (op : String) (spans : List Span) (h : tracer.createError ctx = none)
    (hn : tracer.noop ctx = false) :
    createSpan dbTypeString ctx tracer opts op spans =
      ((some spans.length, none),
        spans ++ [{ spanType := SpanType.Exit, operationName := opts.getOpName op,
                    peer := opts.peer, componentID := opts.componentID,
                    layer := SpanLayer.Database,
                    tags := [("db.type", dbTypeString opts.dbType),
                      ("db.instance", opts.peer)],
                    ended := 0, noop := false }]) := by
  simp [createSpan, Tracer.CreateLocalSpan, h, hn, SetPeer, SetComponent, SetSpanLayer, Tag,
    updateSpan_last, SpanOption.apply, Span.fresh, tagDbType, tagDbInstance]

theorem createSpan_noop (dbTypeString : DBType → String) (ctx : Context) (tracer : Tracer)
    (opts : Options) (op : String) (spans : List Span) (h : tracer.createError ctx = none)
    (hn : tracer.noop ctx = true) :
    createSpan dbTypeString ctx tracer opts op spans =
      ((some spans.length, none), spans ++ [Span.noopSpan]) := by
  simp [createSpan, Tracer.CreateLocalSpan, h, hn, SetPeer, SetComponent, SetSpanLayer, Tag,
    updateSpan_last, Span.noopSpan]

theorem createLocalSpan_created (dbTypeString : DBType → String) (ctx : Context)
    (tracer : Tracer) (opts : Options) (op : String) (spans : List Span)
    (h : tracer.createError ctx = none) (hn : tracer.noop ctx = false) :
    createLocalSpan dbTypeString ctx tracer opts op spans =
      ((some spans.length, some { ctx with activeSpan := some spans.length }, none),
        spans ++ [{ spanType := SpanType.Local, operationName := opts.getOpName op,
                    peer := "", componentID := opts.componentID,
                    layer := SpanLayer.Database,
                    tags := [("db.type", dbTypeString opts.dbType),
                      ("db.instance", opts.peer)],
                    ended := 0, noop := false }]) := by
  simp [createLocalSpan, Tracer.CreateLocalSpan, h, hn, SetComponent, SetSpanLayer, Tag,
    updateSpan_last, SpanOption.apply, Span.fresh, tagDbType, tagDbInstance]

theorem createLocalSpan_noop (dbTypeString : DBType → String) (ctx : Context)
    (tracer : Tracer) (opts : Options) (op : String) (spans : List Span)
    (h : tracer.createError ctx = none) (hn : tracer.noop ctx = true) :
    createLocalSpan dbTypeString ctx tracer opts op spans =
      ((some spans.length, some { ctx with activeSpan := some spans.length }, none),
        spans ++ [Span.noopSpan]) := by
  simp [createLocalSpan, Tracer.CreateLocalSpan, h, hn, SetComponent, SetSpanLayer, Tag,
    updateSpan_last, Span.noopSpan]

theorem createSpan_refused (dbTypeString : DBType → String) (ctx : Context) (tracer : Tracer)
    (opts : Options) (op : String) (spans : List Span) (e : GoError)
    (h : tracer.createError ctx = some e) :
    createSpan dbTypeString ctx tracer opts op spans = ((none, some e), spans) := by
  simp only [createSpan, Tracer.CreateLocalSpan, h]

theorem createLocalSpan_refused (dbTypeString : DBType → String) (ctx : Context)
    (tracer : Tracer) (opts : Options) (op : String) (spans : List Span) (e : GoError)
    (h : tracer.createError ctx = some e) :
    createLocalSpan dbTypeString ctx tracer opts op spans = ((none, none, some e), spans) := by
  simp only [createLocalSpan, Tracer.CreateLocalSpan, h]

theorem Tag_last (spans : List Span) (sp : Span) (key value : String) :
    Tag spans.length key value (spans ++ [sp]) =
      spans ++ [if sp.noop = true then sp
        else { sp with tags := sp.tags ++ [(key, value)] }] := by
  simp only [Tag, updateSpan_last]

theorem End_last (spans : List Span) (sp : Span) :
    End spans.length (spans ++ [sp]) = spans ++ [{ sp with ended := sp.ended + 1 }] := by
  simp only [End, updateSpan_last]

/-- C15: for every wrapped database operation (`Connect`, `Prepare`, `Exec`, `Query`,
`Commit`, `Rollback`, `Close`) and every outcome of the underlying driver call (success or
driver error), the span opened for the operation is finished exactly once, and the
driver's outcome is returned as it is; the spans that were there before are as they were.
When no span is opened (the driver lacks the capability, or the tracer refuses) the driver
is not called and no span is finished. -/
theorem wrappedOperation_finishes_once (dbTypeString : DBType → String) (op : Operation)
    (ctx : Context) (tracer : Tracer) (opts : Options) (statement parameters : Option String)
    (driver : DriverCall) (spans : List Span) :
    (driver.supported = true → tracer.createError ctx = none →
      ∃ sp : Span,
        (wrappedOperation dbTypeString op ctx tracer opts statement parameters driver spans).2 =
          spans ++ [sp] ∧
        sp.ended = 1 ∧
        (wrappedOperation dbTypeString op ctx tracer opts statement parameters driver spans).1.span =
          some spans.length ∧
        (wrappedOperation dbTypeString op ctx tracer opts statement parameters driver spans).1.err =
          driver.outcome ∧
        (wrappedOperation dbTypeString op ctx tracer opts statement parameters driver
          spans).1.delegated = true) ∧
      ((driver.supported = false ∨ tracer.createError ctx ≠ none) →
        (wrappedOperation dbTypeString op ctx tracer opts statement parameters driver spans).2 =
          spans ∧
        (wrappedOperation dbTypeString op ctx tracer opts statement parameters driver spans).1.span =
          none ∧
        (wrappedOperation dbTypeString op ctx tracer opts statement parameters driver
          spans).1.delegated = false) := by
  constructor
  · intro hsup hcreate
    unfold wrappedOperation
    rw [if_neg (by rw [hsup]; decide)]
    cases hn : tracer.noop ctx
    · cases hkind : op.usesExitSpan <;> cases statement <;> cases parameters <;>
        simp [createSpan_created _ _ _ _ _ _ hcreate hn,
          createLocalSpan_created _ _ _ _ _ _ hcreate hn, Tag_last, End_last]
    · cases hkind : op.usesExitSpan <;> cases statement <;> cases parameters <;>
        simp [createSpan_noop _ _ _ _ _ _ hcreate hn,
          createLocalSpan_noop _ _ _ _ _ _ hcreate hn, Tag_last, End_last, Span.noopSpan]
  · intro h
    unfold wrappedOperation
    cases hsup : driver.supported with
    | false => simp
    | true =>
      rcases h with h | h
      · rw [hsup] at h; cases h
      · obtain ⟨e, he⟩ := Option.ne_none_iff_exists'.mp h
        cases hkind : op.usesExitSpan <;>
          simp [createSpan_refused _ _ _ _ _ _ e he, createLocalSpan_refused _ _ _ _ _ _ e he]

theorem wrappedOperation_finishes_once_witness :
    ∃ sp : Span,
      (wrappedOperation (fun _ => "mysql") Operation.Exec (Context.mk none)
        (Tracer.mk (fun _ => none) (fun _ => false))
        (Options.mk DBType.MYSQL componentIDMysql "127.0.0.1:3306" (fun op => "mysql/" ++ op))
        (some "SELECT 1") none (DriverCall.mk true (some (errorsNew "bad connection"))) []).2 =
          [] ++ [sp] ∧
      sp.ended = 1 ∧
      (wrappedOperation (fun _ => "mysql") Operation.Exec (Context.mk none)
        (Tracer.mk (fun _ => none) (fun _ => false))
        (Options.mk DBType.MYSQL componentIDMysql "127.0.0.1:3306" (fun op => "mysql/" ++ op))
        (some "SELECT 1") none (DriverCall.mk true (some (errorsNew "bad connection")))
        []).1.span = some ([] : List Span).length ∧
      (wrappedOperation (fun _ => "mysql") Operation.Exec (Context.mk none)
        (Tracer.mk (fun _ => none) (fun _ => false))
        (Options.mk DBType.MYSQL componentIDMysql "127.0.0.1:3306" (fun op => "mysql/" ++ op))
        (some "SELECT 1") none (DriverCall.mk true (some (errorsNew "bad connection")))
        []).1.err = (DriverCall.mk true (some (errorsNew "bad connection"))).outcome ∧
      (wrappedOperation (fun _ => "mysql") Operation.Exec (Context.mk none)
        (Tracer.mk (fun _ => none) (fun _ => false))
        (Options.mk DBType.MYSQL componentIDMysql "127.0.0.1:3306" (fun op => "mysql/" ++ op))
        (some "SELECT 1") none (DriverCall.mk true (some (errorsNew "bad connection")))
        []).1.delegated = true :=
  (wrappedOperation_finishes_once (fun _ => "mysql") Operation.Exec (Context.mk none)
    (Tracer.mk (fun _ => none) (fun _ => false))
    (Options.mk DBType.MYSQL componentIDMysql "127.0.0.1:3306" (fun op => "mysql/" ++ op))
    (some "SELECT 1") none (DriverCall.mk true (some (errorsNew "bad connection"))) []).1
    rfl rfl

end Go2skySql
